import Mathlib

/-!
Shallow embedding of the codeviz architecture-analysis pipeline
(`src/services/architecture-analysis/ArchitectureAnalysisService.ts`,
`src/services/architecture-analysis/ArchitectureClusteringService.ts`,
`src/core/task/tools/handlers/GenerateArchitectureDiagramToolHandler.ts`,
`src/services/architecture-analysis/ExecutionTraceStorageService.ts`)
together with theorems checking the natural-language specification
against the embedded code.

External collaborators (the file system, ts-morph, the LLM api, and the
Node path helpers) are passed in as explicit parameters, so every
embedded operation is a pure function.  JavaScript `Map`s and `Set`s are
modelled as lists kept in insertion order, which is how those containers
iterate.  Machine numbers in this code are array lengths, line counts
and counters, all far from any overflow boundary, so they are modelled
as `Nat`.
-/

namespace Codeviz

/-- Model of `Array.from(new Set(xs))` in JavaScript: removes duplicates
keeping the first occurrence, preserving first-seen insertion order. -/
def jsDedup (l : List String) : List String :=
  l.foldl (fun acc x => if x ∈ acc then acc else acc ++ [x]) []

/-- Model of JavaScript `Array.prototype.join(sep)`. -/
def joinSep (sep : String) : List String → String
  | [] => ""
  | [x] => x
  | x :: xs => x ++ sep ++ joinSep sep xs

/-! ## Data model (`shared/architecture-visualization/types`) -/

/-- `ExportedSymbol` from the shared types. -/
structure ExportedSymbol where
  name : String
  kind : String
  isDefault : Bool
deriving Repr, DecidableEq

/-- `ImportRecord` from the shared types.  `resolvedPath` is `undefined`
for external packages and for local specifiers that did not resolve. -/
structure ImportRecord where
  source : String
  resolvedPath : Option String
  importedSymbols : List String
  isTypeOnly : Bool
deriving Repr, DecidableEq

/-- `FileRecord` from the shared types. -/
structure FileRecord where
  path : String
  size : Nat
  linesOfCode : Nat
  exports : List ExportedSymbol
  imports : List ImportRecord
  language : String
deriving Repr, DecidableEq

/-- The raw `{ from, to, count, types }` records accumulated in
`generateInventory` before aggregation.  The TypeScript field `from` is a
Lean keyword, so the fields are named `fromPath` / `toPath`; `types` is a
JavaScript `Set<string>` modelled as its insertion-order element list. -/
structure RawDependency where
  fromPath : String
  toPath : String
  count : Nat
  types : List String
deriving Repr, DecidableEq

/-- `DependencyEdge` from the shared types (fields `from` / `to` renamed
`fromPath` / `toPath` because `from` is a Lean keyword). -/
structure DependencyEdge where
  fromPath : String
  toPath : String
  count : Nat
  importedTypes : List String
deriving Repr, DecidableEq

/-- `RepoInventory.metadata` from the shared types. -/
structure InventoryMetadata where
  timestamp : Nat
  workspaceRoot : String
  fileCount : Nat
  totalLOC : Nat
  analyzedExtensions : List String
  durationMs : Nat
deriving Repr, DecidableEq

/-- `RepoInventory` from the shared types. -/
structure RepoInventory where
  files : List FileRecord
  dependencies : List DependencyEdge
  metadata : InventoryMetadata
deriving Repr, DecidableEq

/-! ## Dependency aggregation
(`ArchitectureAnalysisService.aggregateDependencies`) -/

/-- The key `` `${dep.from}:::${dep.to}` `` used by `aggregateDependencies`. -/
def depKey (f t : String) : String := f ++ ":::" ++ t

/-- Key of an already-aggregated edge. -/
def edgeKey (e : DependencyEdge) : String := depKey e.fromPath e.toPath

/-- Key of a raw dependency record. -/
def rawKey (d : RawDependency) : String := depKey d.fromPath d.toPath

/-- The merge branch of `aggregateDependencies`: `existing.count += dep.count`
and each element of `dep.types` is pushed onto `existing.importedTypes`
unless already present (the check is against the growing array). -/
def mergeTypes (existing : List String) (types : List String) : List String :=
  types.foldl (fun acc t => if t ∈ acc then acc else acc ++ [t]) existing

/-- Merge a raw dependency into the aggregated edge sharing its key. -/
def updateEdge (d : RawDependency) (e : DependencyEdge) : DependencyEdge :=
  { e with count := e.count + d.count, importedTypes := mergeTypes e.importedTypes d.types }

/-- One step of the `aggregateDependencies` loop: a JavaScript
`Map.get`/`Map.set` keyed by `rawKey`.  The map holds at most one entry per
key, so updating every entry with a matching key is the same as updating
the entry; a fresh key appends at the end, matching `Map` insertion order. -/
def insertAgg (acc : List DependencyEdge) (d : RawDependency) : List DependencyEdge :=
  if acc.any (fun e => edgeKey e == rawKey d) then
    acc.map (fun e => if edgeKey e == rawKey d then updateEdge d e else e)
  else
    acc ++ [{ fromPath := d.fromPath, toPath := d.toPath, count := d.count,
              importedTypes := d.types }]

/-- `ArchitectureAnalysisService.aggregateDependencies`: merge duplicate
edges and count occurrences; `Array.from(aggregated.values())` returns the
entries in key insertion order. -/
def aggregateDependencies (dependencies : List RawDependency) : List DependencyEdge :=
  dependencies.foldl insertAgg []

/-! ## Inventory generation (`ArchitectureAnalysisService.generateInventory`)

The workspace scan (`globby`), the per-file stat/parse (`analyzeFile`) and
`path.relative` touch the file system and ts-morph, so they enter the
embedding as parameters: `scanned` is the list the scanner returned,
`analyze` maps a scanned path to the `FileRecord` produced by
`analyzeFile` (`none` when the file was skipped for size or failed to
parse), and `rel` is `path.relative(workspaceRoot, ·)`. -/

/-- The dependency-accumulation loop of `generateInventory`: for every
analyzed record, every import with a `resolvedPath` contributes one raw
edge `{ from: record.path, to: rel(resolvedPath), count: 1,
types: new Set(imp.importedSymbols) }`.  The `isTypeOnly` flag is not
consulted here. -/
def buildRawDeps (rel : String → String) (records : List FileRecord) : List RawDependency :=
  records.flatMap (fun record =>
    record.imports.filterMap (fun imp =>
      match imp.resolvedPath with
      | some p => some { fromPath := record.path, toPath := rel p, count := 1,
                         types := jsDedup imp.importedSymbols }
      | none => none))

/-- `ArchitectureAnalysisService.generateInventory`.  Batching with
`Promise.all` concatenates the per-batch results in order, which is the
same as mapping `analyze` over `scanned` in order. -/
def generateInventory (scanned : List String) (analyze : String → Option FileRecord)
    (rel : String → String) (workspaceRoot : String) (timestamp durationMs : Nat)
    (extensions : List String) : Except String RepoInventory :=
  if scanned.length = 0 then
    .error "No TypeScript/JavaScript files found in workspace"
  else
    let fileRecords := scanned.filterMap analyze
    let dependencyEdges := aggregateDependencies (buildRawDeps rel fileRecords)
    .ok { files := fileRecords
          dependencies := dependencyEdges
          metadata := { timestamp := timestamp
                        workspaceRoot := workspaceRoot
                        fileCount := fileRecords.length
                        totalLOC := (fileRecords.map (·.linesOfCode)).sum
                        analyzedExtensions := extensions
                        durationMs := durationMs } }

/-! ## JSON values and parsing

`clusterArchitecture` hands the extracted response text to the JavaScript
builtin `JSON.parse`, and `buildClusteringPrompt` serializes the inventory
summary with `JSON.stringify(·, null, 2)`.  Both builtins are modelled
here from the ECMAScript JSON grammar.  Number literals keep their raw
lexeme, which is all the embedded code inspects. -/

/-- The character `{` (written via its code point to keep brace characters
out of the source text of literals). -/
def lbraceChar : Char := Char.ofNat 123

/-- The character `}`. -/
def rbraceChar : Char := Char.ofNat 125

/-- A JSON value.  Object fields are kept in textual order. -/
inductive Json where
  | null
  | bool (b : Bool)
  | num (raw : String)
  | str (s : String)
  | arr (elements : List Json)
  | obj (fields : List (String × Json))
deriving Repr, Inhabited

/-- JSON insignificant whitespace. -/
def isJsonWs (c : Char) : Bool := c = ' ' || c = '\t' || c = '\n' || c = '\r'

/-- Drop leading JSON whitespace. -/
def skipWs : List Char → List Char
  | [] => []
  | c :: rest => if isJsonWs c then skipWs rest else c :: rest

/-- Value of a hexadecimal digit. -/
def hexVal (c : Char) : Option Nat :=
  if '0' ≤ c ∧ c ≤ '9' then some (c.toNat - '0'.toNat)
  else if 'a' ≤ c ∧ c ≤ 'f' then some (c.toNat - 'a'.toNat + 10)
  else if 'A' ≤ c ∧ c ≤ 'F' then some (c.toNat - 'A'.toNat + 10)
  else none

/-- Decode a single-character JSON escape (everything except `\\u`). -/
def unescapeChar (c : Char) : Option Char :=
  if c = '"' then some '"'
  else if c = '\\' then some '\\'
  else if c = '/' then some '/'
  else if c = 'b' then some (Char.ofNat 8)
  else if c = 'f' then some (Char.ofNat 12)
  else if c = 'n' then some '\n'
  else if c = 'r' then some '\r'
  else if c = 't' then some '\t'
  else none

/-- Parse the body of a JSON string after the opening quote, returning the
decoded characters and the remaining input after the closing quote. -/
def parseStringChars : Nat → List Char → Option (List Char × List Char)
  | 0, _ => none
  | _ + 1, [] => none
  | fuel + 1, c :: rest =>
    if c = '"' then some ([], rest)
    else if c.toNat < 32 then none
    else if c = '\\' then
      match rest with
      | [] => none
      | e :: rest2 =>
        if e = 'u' then
          match rest2 with
          | h1 :: h2 :: h3 :: h4 :: rest3 => do
            let v1 ← hexVal h1
            let v2 ← hexVal h2
            let v3 ← hexVal h3
            let v4 ← hexVal h4
            let (cs, r) ← parseStringChars fuel rest3
            pure (Char.ofNat (((v1 * 16 + v2) * 16 + v3) * 16 + v4) :: cs, r)
          | _ => none
        else do
          let d ← unescapeChar e
          let (cs, r) ← parseStringChars fuel rest2
          pure (d :: cs, r)
    else do
      let (cs, r) ← parseStringChars fuel rest
      pure (c :: cs, r)

/-- Parse an optional JSON fraction part, returning its lexeme characters. -/
def parseFrac : List Char → Option (List Char × List Char)
  | [] => some ([], [])
  | c :: rest =>
    if c = '.' then
      let (ds, r) := rest.span (·.isDigit)
      if ds.isEmpty then none else some (c :: ds, r)
    else some ([], c :: rest)

/-- Parse an optional JSON exponent part, returning its lexeme characters. -/
def parseExp : List Char → Option (List Char × List Char)
  | [] => some ([], [])
  | c :: rest =>
    if c = 'e' ∨ c = 'E' then
      match rest with
      | [] => none
      | s :: rest2 =>
        if s = '+' ∨ s = '-' then
          let (ds, r) := rest2.span (·.isDigit)
          if ds.isEmpty then none else some (c :: s :: ds, r)
        else
          let (ds, r) := rest.span (·.isDigit)
          if ds.isEmpty then none else some (c :: ds, r)
    else some ([], c :: rest)

/-- Parse a JSON number, returning its raw lexeme. -/
def parseNumber (s : List Char) : Option (String × List Char) :=
  let signSplit : List Char × List Char :=
    match s with
    | c :: rest => if c = '-' then ([c], rest) else ([], s)
    | [] => ([], [])
  let sign := signSplit.1
  let s1 := signSplit.2
  let intSplit := s1.span (·.isDigit)
  let intPart := intSplit.1
  let s2 := intSplit.2
  if intPart.isEmpty then none
  else if intPart.length > 1 ∧ intPart.head? = some '0' then none
  else do
    let (fracPart, s3) ← parseFrac s2
    let (expPart, s4) ← parseExp s3
    pure (String.mk (sign ++ intPart ++ fracPart ++ expPart), s4)

mutual

/-- Recursive-descent JSON value parser (fuel-indexed; the fuel never runs
out when it starts at one more than the input length, since every
recursive call follows the consumption of at least one character). -/
def parseValue : Nat → List Char → Option (Json × List Char)
  | 0, _ => none
  | fuel + 1, s =>
    match skipWs s with
    | [] => none
    | c :: rest =>
      if c = '"' then
        (parseStringChars (fuel + 1) rest).map (fun p => (Json.str (String.mk p.1), p.2))
      else if c = lbraceChar then
        match skipWs rest with
        | [] => none
        | d :: rest2 =>
          if d = rbraceChar then some (Json.obj [], rest2)
          else (parseMembers fuel (d :: rest2)).map (fun p => (Json.obj p.1, p.2))
      else if c = '[' then
        match skipWs rest with
        | [] => none
        | d :: rest2 =>
          if d = ']' then some (Json.arr [], rest2)
          else (parseElements fuel (d :: rest2)).map (fun p => (Json.arr p.1, p.2))
      else if c = 't' then
        match rest with
        | 'r' :: 'u' :: 'e' :: r => some (Json.bool true, r)
        | _ => none
      else if c = 'f' then
        match rest with
        | 'a' :: 'l' :: 's' :: 'e' :: r => some (Json.bool false, r)
        | _ => none
      else if c = 'n' then
        match rest with
        | 'u' :: 'l' :: 'l' :: r => some (Json.null, r)
        | _ => none
      else
        (parseNumber (c :: rest)).map (fun p => (Json.num p.1, p.2))

/-- Parse the members of a JSON object after the opening brace (the input
is known not to begin the empty object). -/
def parseMembers : Nat → List Char → Option (List (String × Json) × List Char)
  | 0, _ => none
  | fuel + 1, s =>
    match skipWs s with
    | [] => none
    | c :: rest =>
      if c = '"' then do
        let (key, r1) ← parseStringChars (fuel + 1) rest
        match skipWs r1 with
        | ':' :: r2 => do
          let (v, r3) ← parseValue fuel r2
          match skipWs r3 with
          | [] => none
          | d :: r4 =>
            if d = ',' then do
              let (ms, r5) ← parseMembers fuel r4
              pure ((String.mk key, v) :: ms, r5)
            else if d = rbraceChar then pure ([(String.mk key, v)], r4)
            else none
        | _ => none
      else none

/-- Parse the elements of a JSON array after the opening bracket (the
input is known not to begin the empty array). -/
def parseElements : Nat → List Char → Option (List Json × List Char)
  | 0, _ => none
  | fuel + 1, s => do
    let (v, r1) ← parseValue fuel s
    match skipWs r1 with
    | [] => none
    | d :: r2 =>
      if d = ',' then do
        let (vs, r3) ← parseElements fuel r2
        pure (v :: vs, r3)
      else if d = ']' then pure ([v], r2)
      else none

end

/-- Model of the JavaScript builtin `JSON.parse`: a single JSON value with
optional surrounding whitespace; anything else raises a `SyntaxError`. -/
def jsonParse (s : String) : Option Json :=
  match parseValue (s.data.length + 1) s.data with
  | some (v, rest) => if (skipWs rest).isEmpty then some v else none
  | none => none

/-- Model of `` responseText.match(/\{[\s\S]*\}/) `` in `clusterArchitecture`:
the regex is greedy, so a match runs from the first brace-open character in
the text to the last brace-close character, and exists exactly when some
brace-close follows some brace-open. -/
def extractJson (s : List Char) : Option (List Char) :=
  match s.findIdx? (· = lbraceChar), s.reverse.findIdx? (· = rbraceChar) with
  | some i, some jr =>
    let j := s.length - 1 - jr
    if i < j then some ((s.drop i).take (j - i + 1)) else none
  | _, _ => none

/-! ## JSON serialization (model of the `JSON.stringify` builtin) -/

/-- Lower-case hexadecimal digit. -/
def hexDigit (n : Nat) : Char :=
  if n < 10 then Char.ofNat ('0'.toNat + n) else Char.ofNat ('a'.toNat + n - 10)

/-- Escapes of one character inside a serialized JSON string. -/
def escapeJsonChar (c : Char) : List Char :=
  if c = '"' then ['\\', '"']
  else if c = '\\' then ['\\', '\\']
  else if c = '\n' then ['\\', 'n']
  else if c = '\r' then ['\\', 'r']
  else if c = '\t' then ['\\', 't']
  else if c = Char.ofNat 8 then ['\\', 'b']
  else if c = Char.ofNat 12 then ['\\', 'f']
  else if c.toNat < 32 then ['\\', 'u', '0', '0', hexDigit (c.toNat / 16), hexDigit (c.toNat % 16)]
  else [c]

/-- Serialize a string as a quoted JSON string literal. -/
def quoteJsonString (s : String) : String :=
  String.mk ('"' :: (s.data.flatMap escapeJsonChar ++ ['"']))

mutual

/-- Compact serialization, the model of `JSON.stringify(value)`. -/
def writeJson : Json → String
  | .null => "null"
  | .bool b => if b then "true" else "false"
  | .num raw => raw
  | .str s => quoteJsonString s
  | .arr xs => "[" ++ writeJsonElems xs ++ "]"
  | .obj fs => String.mk [lbraceChar] ++ writeJsonFields fs ++ String.mk [rbraceChar]

/-- Comma-separated compact array elements. -/
def writeJsonElems : List Json → String
  | [] => ""
  | [x] => writeJson x
  | x :: y :: xs => writeJson x ++ "," ++ writeJsonElems (y :: xs)

/-- Comma-separated compact object members. -/
def writeJsonFields : List (String × Json) → String
  | [] => ""
  | [(k, v)] => quoteJsonString k ++ ":" ++ writeJson v
  | (k, v) :: f :: fs => quoteJsonString k ++ ":" ++ writeJson v ++ "," ++ writeJsonFields (f :: fs)

end

mutual

/-- Pretty serialization with a two-space gap, the model of
`JSON.stringify(value, null, 2)`; `indent` is the indentation of the
enclosing value. -/
def writeJsonPretty (indent : String) : Json → String
  | .null => "null"
  | .bool b => if b then "true" else "false"
  | .num raw => raw
  | .str s => quoteJsonString s
  | .arr [] => "[]"
  | .arr (x :: xs) =>
      "[\n" ++ writeJsonElemsPretty (indent ++ "  ") (x :: xs) ++ "\n" ++ indent ++ "]"
  | .obj [] => String.mk [lbraceChar, rbraceChar]
  | .obj (f :: fs) =>
      String.mk [lbraceChar] ++ "\n" ++ writeJsonFieldsPretty (indent ++ "  ") (f :: fs)
        ++ "\n" ++ indent ++ String.mk [rbraceChar]

/-- Pretty array elements, one per line, comma-separated. -/
def writeJsonElemsPretty (indent : String) : List Json → String
  | [] => ""
  | [x] => indent ++ writeJsonPretty indent x
  | x :: y :: xs =>
      indent ++ writeJsonPretty indent x ++ ",\n" ++ writeJsonElemsPretty indent (y :: xs)

/-- Pretty object members, one per line, comma-separated. -/
def writeJsonFieldsPretty (indent : String) : List (String × Json) → String
  | [] => ""
  | [(k, v)] => indent ++ quoteJsonString k ++ ": " ++ writeJsonPretty indent v
  | (k, v) :: f :: fs =>
      indent ++ quoteJsonString k ++ ": " ++ writeJsonPretty indent v ++ ",\n"
        ++ writeJsonFieldsPretty indent (f :: fs)

end

/-! ## Cluster-graph data model (`shared/architecture-visualization/types`) -/

/-- `TechnologyStack` from the shared types (all fields optional). -/
structure TechnologyStack where
  language : Option String
  framework : Option String
  libraries : Option (List String)
  databases : Option (List String)
  messaging : Option (List String)
deriving Repr, DecidableEq

/-- `Cluster` from the shared types.  `version` carries the Zod default 2
when absent from the input. -/
structure Cluster where
  id : String
  label : String
  description : String
  files : List String
  keyFiles : List String
  color : Option String
  layer : Option String
  version : Nat
  componentType : Option String
  technology : Option TechnologyStack
  responsibilities : Option (List String)
deriving Repr, DecidableEq

/-- One `topDependencies` evidence triple of a `ClusterEdge` (`from` / `to`
renamed as in `DependencyEdge`). -/
structure TopDependency where
  fromPath : String
  toPath : String
  count : Nat
deriving Repr, DecidableEq

/-- `ClusterEdge` from the shared types. -/
structure ClusterEdge where
  id : String
  source : String
  target : String
  weight : Nat
  label : String
  topDependencies : List TopDependency
  relationshipType : Option String
  protocol : Option String
  description : Option String
deriving Repr, DecidableEq

/-- `FilteringDefaults` from the shared types, with Zod defaults applied. -/
structure FilteringDefaults where
  minEdgeWeight : Nat
  collapsedClusters : List String
  visibleLayers : List String
deriving Repr, DecidableEq

/-- `ClusterGraph.metadata` from the shared types. -/
structure ClusterGraphMetadata where
  timestamp : Nat
  clusterCount : Nat
  sourceInventoryHash : String
  schemaVersion : Option Nat
  c4Level : Option String
deriving Repr, DecidableEq

/-- `ClusterGraph` from the shared types.  `id` and `metadata` are optional
in the schema because the clustering service adds them programmatically
after validation. -/
structure ClusterGraph where
  id : Option String
  clusters : List Cluster
  clusterEdges : List ClusterEdge
  filteringDefaults : FilteringDefaults
  metadata : Option ClusterGraphMetadata
deriving Repr, DecidableEq

/-! ## Zod schema validation
(`shared/architecture-visualization/schemas`, `ClusterGraphSchema`)

`ClusterGraphSchema.safeParse` both checks the shape of the parsed JSON
and enforces the value-level refinements (non-empty strings, the
cluster-id pattern, positivity, and the 5–12 cluster cardinality).  Zod
reports the full list of violations; the embedding reports the first,
which the service code never inspects beyond embedding it in messages. -/

/-- The `ClusterSchema` id pattern `^[a-z0-9-]+$`. -/
def isLowerHyphen (s : String) : Bool :=
  !s.isEmpty && s.data.all (fun c => ('a' ≤ c && c ≤ 'z') || ('0' ≤ c && c ≤ '9') || c = '-')

/-- The `ClusterSchema` color pattern `^#[0-9a-fA-F]{6}$` (six hex digits
after a hash sign). -/
def isHexColor (s : String) : Bool :=
  match s.data with
  | '#' :: rest =>
      rest.length = 6 && rest.all (fun c =>
        ('0' ≤ c && c ≤ '9') || ('a' ≤ c && c ≤ 'f') || ('A' ≤ c && c ≤ 'F'))
  | _ => false

/-- `ClusterSchema.layer` enum. -/
def layerValues : List String := ["presentation", "business", "data", "infrastructure"]

/-- `C4ComponentTypeSchema` enum. -/
def componentTypeValues : List String :=
  ["controller", "service", "repository", "component", "gateway", "database",
   "external_system", "message_queue", "cache", "middleware", "utility", "config"]

/-- `C4RelationshipTypeSchema` enum. -/
def relationshipTypeValues : List String :=
  ["uses", "calls", "renders", "reads_from", "writes_to", "publishes_to", "subscribes_to"]

/-- `C4ProtocolSchema` enum. -/
def protocolValues : List String :=
  ["HTTP", "gRPC", "SQL", "Redis", "REST", "GraphQL", "WebSocket", "AMQP", "Internal"]

/-- Field lookup on a parsed JSON object. -/
def getField (fields : List (String × Json)) (name : String) : Option Json :=
  (fields.find? (fun p => p.1 == name)).map (·.2)

/-- Read a required object field. -/
def reqField (fields : List (String × Json)) (name : String) : Except String Json :=
  match getField fields name with
  | some j => .ok j
  | none => .error (name ++ ": Required")

/-- Expect a JSON object. -/
def asObj : Json → Except String (List (String × Json))
  | Json.obj fs => .ok fs
  | _ => .error "Expected object"

/-- Expect a JSON array. -/
def asArray : Json → Except String (List Json)
  | Json.arr xs => .ok xs
  | _ => .error "Expected array"

/-- Expect a JSON string (`z.string()`). -/
def asString : Json → Except String String
  | Json.str s => .ok s
  | _ => .error "Expected string, received something else"

/-- Expect a non-empty JSON string (`z.string().min(1)`). -/
def asStringMin1 (j : Json) : Except String String := do
  let s ← asString j
  if s.isEmpty then .error "String must contain at least 1 character(s)" else .ok s

/-- Expect a JSON number.  The embedded code only ever supplies and
consumes whole numbers, so numeric fields are modelled at `Nat`
precision. -/
def asNat : Json → Except String Nat
  | Json.num raw =>
      match raw.toNat? with
      | some n => .ok n
      | none => .error "Expected a whole number"
  | _ => .error "Expected number, received something else"

/-- `z.number().positive()`. -/
def asPositiveNat (j : Json) : Except String Nat := do
  let n ← asNat j
  if n = 0 then .error "Number must be greater than 0" else .ok n

/-- Expect one of an enumeration of string values (`z.enum`). -/
def asEnum (values : List String) (j : Json) : Except String String := do
  let s ← asString j
  if values.contains s then .ok s else .error "Invalid enum value"

/-- Decode an optional object field (`.optional()`): absent means `none`,
present values must satisfy the field schema. -/
def optField (fields : List (String × Json)) (name : String)
    (f : Json → Except String α) : Except String (Option α) :=
  match getField fields name with
  | some j => (f j).map some
  | none => .ok none

/-- `TechnologyStackSchema`. -/
def decodeTechnology (j : Json) : Except String TechnologyStack := do
  let fs ← asObj j
  let language ← optField fs "language" asString
  let framework ← optField fs "framework" asString
  let libraries ← optField fs "libraries" (fun j => do (← asArray j).mapM asString)
  let databases ← optField fs "databases" (fun j => do (← asArray j).mapM asString)
  let messaging ← optField fs "messaging" (fun j => do (← asArray j).mapM asString)
  pure { language, framework, libraries, databases, messaging }

/-- `ClusterSchema`. -/
def decodeCluster (j : Json) : Except String Cluster := do
  let fs ← asObj j
  let id ← reqField fs "id" >>= asStringMin1
  if !isLowerHyphen id then
    throw "Cluster ID must be lowercase-with-hyphens"
  let label ← reqField fs "label" >>= asStringMin1
  let description ← reqField fs "description" >>= asStringMin1
  let files ← reqField fs "files" >>= asArray >>= (·.mapM asStringMin1)
  if files.isEmpty then
    throw "Array must contain at least 1 element(s)"
  let keyFiles ← reqField fs "keyFiles" >>= asArray >>= (·.mapM asStringMin1)
  let color ← optField fs "color" (fun j => do
    let s ← asString j
    if isHexColor s then pure s else throw "Invalid")
  let layer ← optField fs "layer" (asEnum layerValues)
  let version ← optField fs "version" asNat
  let componentType ← optField fs "componentType" (asEnum componentTypeValues)
  let technology ← optField fs "technology" decodeTechnology
  let responsibilities ← optField fs "responsibilities" (fun j => do (← asArray j).mapM asString)
  pure { id, label, description, files, keyFiles, color, layer,
         version := version.getD 2, componentType, technology, responsibilities }

/-- `ClusterEdgeSchema`. -/
def decodeClusterEdge (j : Json) : Except String ClusterEdge := do
  let fs ← asObj j
  let id ← reqField fs "id" >>= asStringMin1
  let source ← reqField fs "source" >>= asStringMin1
  let target ← reqField fs "target" >>= asStringMin1
  let weight ← reqField fs "weight" >>= asPositiveNat
  let label ← reqField fs "label" >>= asStringMin1
  let topDependencies ← reqField fs "topDependencies" >>= asArray >>= (·.mapM fun dj => do
    let dfs ← asObj dj
    let f ← reqField dfs "from" >>= asStringMin1
    let t ← reqField dfs "to" >>= asStringMin1
    let count ← reqField dfs "count" >>= asPositiveNat
    pure (TopDependency.mk f t count))
  let relationshipType ← optField fs "relationshipType" (asEnum relationshipTypeValues)
  let protocol ← optField fs "protocol" (asEnum protocolValues)
  let description ← optField fs "description" asString
  pure { id, source, target, weight, label, topDependencies,
         relationshipType, protocol, description }

/-- `FilteringDefaultsSchema` (every field carries a Zod default). -/
def decodeFilteringDefaults (j : Json) : Except String FilteringDefaults := do
  let fs ← asObj j
  let minEdgeWeight ← optField fs "minEdgeWeight" asNat
  let collapsedClusters ← optField fs "collapsedClusters" (fun j => do (← asArray j).mapM asString)
  let visibleLayers ← optField fs "visibleLayers" (fun j => do (← asArray j).mapM asString)
  pure { minEdgeWeight := minEdgeWeight.getD 2,
         collapsedClusters := collapsedClusters.getD [],
         visibleLayers := visibleLayers.getD [] }

/-- `ClusterGraphMetadataSchema`. -/
def decodeMetadata (j : Json) : Except String ClusterGraphMetadata := do
  let fs ← asObj j
  let timestamp ← reqField fs "timestamp" >>= asPositiveNat
  let clusterCount ← reqField fs "clusterCount" >>= asPositiveNat
  let sourceInventoryHash ← reqField fs "sourceInventoryHash" >>= asStringMin1
  let schemaVersion ← optField fs "schemaVersion" asNat
  let c4Level ← optField fs "c4Level" (fun j => do
    let s ← asString j
    if s = "C3" then pure s else throw "Invalid literal value")
  pure { timestamp, clusterCount, sourceInventoryHash, schemaVersion, c4Level }

/-- The `.min(5).max(12)` cardinality refinement on
`ClusterGraphSchema.clusters`. -/
def clustersCardinalityCheck (clusters : List Cluster) : Except String (List Cluster) :=
  if clusters.length < 5 then
    .error "clusters: Array must contain at least 5 element(s)"
  else if clusters.length > 12 then
    .error "clusters: Array must contain at most 12 element(s)"
  else
    .ok clusters

/-- `ClusterGraphSchema.safeParse`. -/
def zodParseClusterGraph (j : Json) : Except String ClusterGraph := do
  let fs ← asObj j
  let id ← optField fs "id" asStringMin1
  let clusters ← reqField fs "clusters" >>= asArray >>= (·.mapM decodeCluster)
  let clusters ← clustersCardinalityCheck clusters
  let clusterEdges ← reqField fs "clusterEdges" >>= asArray >>= (·.mapM decodeClusterEdge)
  let filteringDefaults ← reqField fs "filteringDefaults" >>= decodeFilteringDefaults
  let metadata ← optField fs "metadata" decodeMetadata
  pure { id, clusters, clusterEdges, filteringDefaults, metadata }

/-! ## Clustering service (`ArchitectureClusteringService`) -/

/-- `ArchitectureClusteringService.validateClusterGraph`: the error list
accumulated by the cross-reference validation; the returned `valid` flag
is `errors.length === 0`. -/
def validateClusterGraph (graph : ClusterGraph) (inventory : RepoInventory) : List String :=
  let inventoryPaths := inventory.files.map (·.path)
  let clusterIds := graph.clusters.map (·.id)
  (graph.clusters.flatMap (fun cluster =>
    ((cluster.files.filter (fun filePath => !inventoryPaths.contains filePath)).map
      (fun filePath => "Cluster \"" ++ cluster.id ++ "\" references non-existent file: " ++ filePath))
    ++ ((cluster.keyFiles.filter (fun keyFile => !cluster.files.contains keyFile)).map
      (fun keyFile => "Cluster \"" ++ cluster.id ++ "\" keyFile \"" ++ keyFile
        ++ "\" not in files array"))
    ++ (if !isLowerHyphen cluster.id then
         ["Cluster ID \"" ++ cluster.id ++ "\" must be lowercase-with-hyphens"]
       else [])
    ++ (if cluster.files.isEmpty then ["Cluster \"" ++ cluster.id ++ "\" has no files"] else [])))
  ++ (graph.clusterEdges.flatMap (fun edge =>
    (if !clusterIds.contains edge.source then
      ["Edge \"" ++ edge.id ++ "\" references unknown source cluster: " ++ edge.source]
     else [])
    ++ (if !clusterIds.contains edge.target then
      ["Edge \"" ++ edge.id ++ "\" references unknown target cluster: " ++ edge.target]
     else [])))

/-- The message of the `SyntaxError` raised by `JSON.parse` on malformed
input.  Its exact text is engine-specific; the embedded code only embeds
it in feedback, so it is modelled by a fixed representative string. -/
def jsonSyntaxErrorMsg : String := "Unexpected token in JSON"

/-- The tail of one clustering attempt after `JSON.parse` succeeded:
Zod schema validation, then cross-reference validation against the
inventory, mirroring the try-block of `clusterArchitecture`. -/
def processParsed (inventory : RepoInventory) (clusterGraphData : Json) :
    Except String ClusterGraph :=
  match zodParseClusterGraph clusterGraphData with
  | .error e => .error ("Schema validation failed: " ++ e)
  | .ok clusterGraph =>
    let errors := validateClusterGraph clusterGraph inventory
    if errors.isEmpty then .ok clusterGraph
    else .error ("Cluster validation failed: " ++ joinSep ", " errors)

/-- One clustering attempt applied to the accumulated response text:
JSON extraction, `JSON.parse`, then `processParsed`. -/
def processResponse (inventory : RepoInventory) (responseText : String) :
    Except String ClusterGraph :=
  match extractJson responseText.data with
  | none => .error "No JSON object found in LLM response"
  | some chars =>
    match jsonParse (String.mk chars) with
    | none => .error jsonSyntaxErrorMsg
    | some clusterGraphData => processParsed inventory clusterGraphData

/-- The `JSON.stringify` input of
`ArchitectureClusteringService.hashInventory`: file count, total lines of
code, and the inventory timestamp. -/
def hashInventoryInput (inventory : RepoInventory) : String :=
  writeJson (Json.obj
    [("fileCount", Json.num (toString inventory.files.length)),
     ("totalLOC", Json.num (toString inventory.metadata.totalLOC)),
     ("timestamp", Json.num (toString inventory.metadata.timestamp))])

/-- `ArchitectureClusteringService.hashInventory`.  The digest itself
(`crypto.createHash("sha256") … substring(0, 16)`) is an external library
call, passed in as `sha`. -/
def hashInventory (sha : String → String) (inventory : RepoInventory) : String :=
  sha (hashInventoryInput inventory)

/-- The `inventorySummary` object serialized into the clustering prompt
(`buildClusteringPrompt`): at most 500 files, top 5 exports, top 5
non-type-only import sources per file, and at most 1000 dependency edges
whose source file made the cut and whose imported symbols do not include
the literal name `type`. -/
def inventorySummaryJson (inventory : RepoInventory) : Json :=
  let files := inventory.files.take 500
  Json.obj
    [("files", Json.arr (files.map (fun f => Json.obj
       [("path", Json.str f.path),
        ("linesOfCode", Json.num (toString f.linesOfCode)),
        ("exports", Json.arr (((f.exports.map (·.name)).take 5).map Json.str)),
        ("imports", Json.arr ((((f.imports.filter (fun i => !i.isTypeOnly)).map
          (·.source)).take 5).map Json.str))]))),
     ("dependencies", Json.arr ((((inventory.dependencies.filter (fun d =>
         files.any (fun f => f.path == d.fromPath))).filter (fun d =>
         !(d.importedTypes.contains "type"))).take 1000).map (fun d => Json.obj
       [("from", Json.str d.fromPath),
        ("to", Json.str d.toPath),
        ("count", Json.num (toString d.count)),
        ("importedTypes", Json.arr (d.importedTypes.map Json.str))])))]

/-- The fixed text of the clustering prompt up to the `INVENTORY` heading
(braces and apostrophes written as character escapes). -/
def clusteringPromptIntro : String :=
  "You are analyzing a codebase to create an architecture diagram.\n\n"
  ++ "CRITICAL CONSTRAINTS:\n"
  ++ "1. You MUST ONLY reference file paths from the provided inventory below\n"
  ++ "2. Do NOT invent, guess, or hallucinate file paths\n"
  ++ "3. All cluster.files arrays MUST contain ONLY paths from the inventory\n"
  ++ "4. You MUST cite evidence: list 3-5 \"keyFiles\" that justify each cluster\n"
  ++ "5. Output MUST be valid JSON matching the schema exactly\n"
  ++ "6. DO NOT create clusters for configuration files (*.config.*, tsconfig.json, etc.)\n"
  ++ "7. DO NOT create clusters for files that only define types (interfaces, type aliases)\n"
  ++ "8. IGNORE type-only imports when analyzing dependencies - focus on actual code dependencies\n\n"
  ++ "TASK:\n"
  ++ "Group files into 5-12 logical clusters based on their responsibility and RUNTIME dependencies.\n"
  ++ "Each cluster represents a major architectural component that executes code at runtime.\n"
  ++ "Exclude files that are only used for configuration or type definitions.\n\n"
  ++ "OUTPUT JSON SCHEMA (output ONLY these fields, no metadata or id at top level):\n"
  ++ "\x7b\n"
  ++ "  \"clusters\": [\n"
  ++ "    \x7b\n"
  ++ "      \"id\": \"lowercase-with-hyphens\",\n"
  ++ "      \"label\": \"Human-Readable Label\",\n"
  ++ "      \"description\": \"1-2 sentence summary of this cluster\x27s responsibility\",\n"
  ++ "      \"files\": [\"path/to/file1.ts\", \"path/to/file2.ts\"],\n"
  ++ "      \"keyFiles\": [\"path/to/file1.ts\"],\n"
  ++ "      \"layer\": \"presentation | business | data | infrastructure\"\n"
  ++ "    \x7d\n"
  ++ "  ],\n"
  ++ "  \"clusterEdges\": [\n"
  ++ "    \x7b\n"
  ++ "      \"id\": \"cluster1-to-cluster2\",\n"
  ++ "      \"source\": \"cluster1-id\",\n"
  ++ "      \"target\": \"cluster2-id\",\n"
  ++ "      \"weight\": 12,\n"
  ++ "      \"label\": \"API calls\",\n"
  ++ "      \"topDependencies\": [\n"
  ++ "        \x7b \"from\": \"auth/AuthService.ts\", \"to\": \"api/userRoutes.ts\", \"count\": 5 \x7d\n"
  ++ "      ]\n"
  ++ "    \x7d\n"
  ++ "  ],\n"
  ++ "  \"filteringDefaults\": \x7b\n"
  ++ "    \"minEdgeWeight\": 2,\n"
  ++ "    \"collapsedClusters\": [],\n"
  ++ "    \"visibleLayers\": []\n"
  ++ "  \x7d\n"
  ++ "\x7d\n\n"
  ++ "IMPORTANT: Do NOT include \"id\" or \"metadata\" fields at the root level. Only output the three fields shown above.\n\n"
  ++ "CLUSTERING STRATEGY:\n"
  ++ "- Group by responsibility: authentication, API routes, UI components, data access, utilities\n"
  ++ "- Consider file paths: src/auth/* likely belong together\n"
  ++ "- Use RUNTIME dependencies: files with many cross-imports should cluster together\n"
  ++ "- Ignore type-only imports (marked with isTypeOnly: true)\n"
  ++ "- Skip files that only export types/interfaces (no executable code)\n"
  ++ "- Skip configuration files entirely\n"
  ++ "- Aim for 5-12 clusters (not too granular, not too coarse)\n"
  ++ "- Prefer balanced cluster sizes (avoid 1 file vs 100 files in one cluster)\n"
  ++ "- Make clusters independently understandable and meaningful\n"
  ++ "- Focus on components that represent actual data flow and execution\n\n"
  ++ "INVENTORY"

/-- `ArchitectureClusteringService.buildClusteringPrompt`.  A user hint
that is the empty string is falsy in JavaScript and therefore omitted,
exactly like an absent hint. -/
def buildClusteringPrompt (inventory : RepoInventory) (userHint : Option String)
    (errorFeedback : String) : String :=
  let maxFiles := 500
  let truncated := inventory.files.length > maxFiles
  clusteringPromptIntro
    ++ (if truncated then
          " (showing first " ++ toString maxFiles ++ " of "
            ++ toString inventory.files.length ++ " files)"
        else "")
    ++ ":\n" ++ writeJsonPretty "" (inventorySummaryJson inventory) ++ "\n\n"
    ++ (match userHint with
        | some h => if h.isEmpty then "" else "USER HINT:\n" ++ h ++ "\n\n"
        | none => "")
    ++ errorFeedback
    ++ "\nOUTPUT (JSON only, no markdown code fences):\n"

/-- `maxAttempts` in `clusterArchitecture`. -/
def maxAttempts : Nat := 3

/-- The corrective feedback `lastError` set after a failed attempt. -/
def feedbackFor (errorMsg : String) : String :=
  "\n\nPREVIOUS ATTEMPT FAILED:\n" ++ errorMsg
    ++ "\n\nPlease fix the issues and output valid JSON."

/-- The success epilogue of `clusterArchitecture`: attach the generated id
(`generateClusterGraphId` uses `Date.now` and `Math.random`, so the id
string enters as the parameter `idStr`) and the metadata block. -/
def finalizeGraph (clusterGraph : ClusterGraph) (idStr : String) (now : Nat)
    (inventory : RepoInventory) (sha : String → String) : ClusterGraph :=
  { clusterGraph with
      id := some idStr
      metadata := some { timestamp := now
                         clusterCount := clusterGraph.clusters.length
                         sourceInventoryHash := hashInventory sha inventory
                         schemaVersion := none
                         c4Level := none } }

/-- The `while (attempts < maxAttempts)` loop of `clusterArchitecture`.
`responses k` is the accumulated text the external collaborator streamed
back for the `k`-th `api.createMessage` call.  The second component lists
the prompt submitted on each collaborator invocation, so its length is
the number of invocations made. -/
def clusterLoop (inventory : RepoInventory) (responses : Nat → String)
    (userHint : Option String) (idStr : String) (now : Nat) (sha : String → String) :
    Nat → String → Except String ClusterGraph × List String
  | attempts, lastError =>
    if _h : attempts < maxAttempts then
      let prompt := buildClusteringPrompt inventory userHint lastError
      match processResponse inventory (responses attempts) with
      | .ok clusterGraph => (.ok (finalizeGraph clusterGraph idStr now inventory sha), [prompt])
      | .error errorMsg =>
        if attempts + 1 ≥ maxAttempts then
          (.error ("LLM clustering failed after " ++ toString maxAttempts
            ++ " attempts. Last error: " ++ errorMsg), [prompt])
        else
          let rest := clusterLoop inventory responses userHint idStr now sha
            (attempts + 1) (feedbackFor errorMsg)
          (rest.1, prompt :: rest.2)
    else
      (.error "Clustering failed unexpectedly", [])
termination_by attempts _ => maxAttempts - attempts
decreasing_by simp_wf; omega

/-- `ArchitectureClusteringService.clusterArchitecture`. -/
def clusterArchitecture (inventory : RepoInventory) (responses : Nat → String)
    (userHint : Option String) (idStr : String) (now : Nat) (sha : String → String) :
    Except String ClusterGraph × List String :=
  clusterLoop inventory responses userHint idStr now sha 0 ""

/-! ## Execution traces
(`TraceComponentExecutionToolHandler` in
`GenerateArchitectureDiagramToolHandler.ts`) -/

/-- `CodeReference` from the shared types. -/
structure CodeReference where
  filePath : String
  lineNumber : Option Nat
  snippet : Option String
deriving Repr, DecidableEq

/-- `ExampleData` from the shared types. -/
structure ExampleData where
  format : String
  sample : String
deriving Repr, DecidableEq

/-- `ExecutionStep` from the shared types.  The handler input type
`ExecutionStepInput` has the same fields and is copied field-for-field
into the trace, so one structure serves both. -/
structure ExecutionStep where
  stepNumber : Nat
  componentId : String
  description : String
  codeReference : CodeReference
  exampleData : ExampleData
  transitionTo : Option String
deriving Repr, DecidableEq

/-- `AnimatedEdge` from the shared types. -/
structure AnimatedEdge where
  edgeId : String
  animationOrder : Nat
  durationMs : Nat
deriving Repr, DecidableEq

/-- `ExecutionTraceMetadata` from the shared types. -/
structure ExecutionTraceMetadata where
  timestamp : Nat
  totalSteps : Nat
  componentsInvolved : Nat
deriving Repr, DecidableEq

/-- `ComponentExecutionTrace` from the shared types (the `id` is later
replaced by the storage service; the handler constructs it as `""`). -/
structure ComponentExecutionTrace where
  id : String
  baseDiagramId : String
  entryPoint : String
  steps : List ExecutionStep
  highlightedComponents : List String
  animatedEdges : List AnimatedEdge
  metadata : ExecutionTraceMetadata
  name : Option String
deriving Repr, DecidableEq

/-- The matching `ClusterEdge` lookup of `buildAnimatedEdges`:
`baseGraph.clusterEdges.find(e => e.source === cur && e.target === nxt)`. -/
def findClusterEdge (baseGraph : ClusterGraph) (sourceId targetId : String) :
    Option ClusterEdge :=
  baseGraph.clusterEdges.find? (fun e => e.source == sourceId && e.target == targetId)

/-- The body of the `for (let i = 0; i < steps.length - 1; i++)` loop of
`buildAnimatedEdges`, recursing over the list of consecutive step pairs
with the loop counter `i` carried explicitly. -/
def buildAnimatedEdgesGo (baseGraph : ClusterGraph) (i : Nat) :
    List (ExecutionStep × ExecutionStep) → List AnimatedEdge
  | [] => []
  | (currentStep, nextStep) :: rest =>
    match findClusterEdge baseGraph currentStep.componentId nextStep.componentId with
    | some edge =>
        { edgeId := edge.id, animationOrder := i + 1, durationMs := 1000 }
          :: buildAnimatedEdgesGo baseGraph (i + 1) rest
    | none => buildAnimatedEdgesGo baseGraph (i + 1) rest

/-- `TraceComponentExecutionToolHandler.buildAnimatedEdges`. -/
def buildAnimatedEdges (steps : List ExecutionStep) (baseGraph : ClusterGraph) :
    List AnimatedEdge :=
  buildAnimatedEdgesGo baseGraph 0 (steps.zip steps.tail)

/-- The core of `TraceComponentExecutionToolHandler.execute`, from the
point where the steps array has been parsed: the empty-steps guard, the
base-diagram load (`none` when the storage service found no document),
component-id validation against the base graph, and construction of the
derived trace.  The descriptive `name` is produced by an LLM call
(`generateTraceName`), so it enters as the parameter `traceName`. -/
def traceComponentExecution (baseDiagramId entryPoint : String)
    (steps : List ExecutionStep) (baseGraph : Option ClusterGraph)
    (traceName : String) (now : Nat) : Except String ComponentExecutionTrace :=
  if steps.isEmpty then
    .error "execution_steps array cannot be empty. Provide at least one step."
  else
    match baseGraph with
    | none =>
        .error ("Base diagram not found: " ++ baseDiagramId
          ++ "\n\nMake sure you provide a valid diagram ID from a previously generated architecture diagram.")
    | some baseGraph =>
      let validClusterIds := jsDedup (baseGraph.clusters.map (·.id))
      let invalidComponents :=
        (steps.filter (fun step => !validClusterIds.contains step.componentId)).map
          (·.componentId)
      if !invalidComponents.isEmpty then
        .error ("Invalid componentId(s): " ++ joinSep ", " invalidComponents
          ++ "\n\nValid cluster IDs from diagram \"" ++ baseDiagramId ++ "\":\n"
          ++ joinSep "\n" (validClusterIds.map (fun id => "  - " ++ id)))
      else
        let executionSteps := steps
        let highlightedComponents := jsDedup (executionSteps.map (·.componentId))
        let animatedEdges := buildAnimatedEdges executionSteps baseGraph
        .ok { id := ""
              baseDiagramId := baseDiagramId
              entryPoint := entryPoint
              steps := executionSteps
              highlightedComponents := highlightedComponents
              animatedEdges := animatedEdges
              metadata := { timestamp := now
                            totalSteps := executionSteps.length
                            componentsInvolved := highlightedComponents.length }
              name := some traceName }

/-- The specification-side reading of "unique componentIds in first-seen
order": keep each element's first occurrence, erasing the later repeats.
The theorems below prove this equal to the `Array.from(new Set(...))`
computed by the handler. -/
def firstSeen : List String → List String
  | [] => []
  | x :: xs => x :: firstSeen (xs.filter (fun y => y ≠ x))
termination_by l => l.length
decreasing_by
  simp_wf
  exact Nat.lt_succ_of_le (List.length_filter_le _ _)

/-! ## Specification-side measures and concrete inputs used by the theorems -/

/-- A hypothetical variant of an analyzed record with every import's
`isTypeOnly` flag forced to `b`; used to state that the flag plays no
role in dependency accumulation. -/
def setImportsTypeOnly (b : Bool) (record : FileRecord) : FileRecord :=
  { record with imports := record.imports.map (fun imp => { imp with isTypeOnly := b }) }

/-- The type-only import with a resolved local target used to refute C1. -/
def importC1 : ImportRecord :=
  { source := "./a", resolvedPath := some "/w/a.ts", importedSymbols := ["foo"],
    isTypeOnly := true }

/-- The analyzed record holding only `importC1`. -/
def recordC1 : FileRecord :=
  { path := "b.ts", size := 10, linesOfCode := 5, exports := [],
    imports := [importC1], language := "typescript" }

/-- `analyzeFile` behaviour for the C1 scenario. -/
def analyzeC1 : String → Option FileRecord :=
  fun p => if p = "/w/b.ts" then some recordC1 else none

/-- `path.relative("/w", ·)` for the C1 scenario. -/
def relC1 : String → String :=
  fun p => if p = "/w/a.ts" then "a.ts" else p

/-- Analysis results for the C2 scenario: `big.ts` exists on disk (so
importing it resolves) but `analyzeFile` returned no record for it, as
happens for a file over the size ceiling or one that failed to parse. -/
def analyzeC2 : String → Option FileRecord :=
  fun p =>
    if p = "/w/b.ts" then
      some { path := "b.ts", size := 10, linesOfCode := 5, exports := [],
             imports := [{ source := "./big", resolvedPath := some "/w/big.ts",
                           importedSymbols := ["Big"], isTypeOnly := false }],
             language := "typescript" }
    else none

/-- `path.relative("/w", ·)` for the C2 scenario. -/
def relC2 : String → String :=
  fun p => if p = "/w/big.ts" then "big.ts" else p

/-- The inventory `generateInventory` returns in the C2 scenario. -/
def inventoryC2 : RepoInventory :=
  { files := [{ path := "b.ts", size := 10, linesOfCode := 5, exports := [],
                imports := [{ source := "./big", resolvedPath := some "/w/big.ts",
                              importedSymbols := ["Big"], isTypeOnly := false }],
                language := "typescript" }]
    dependencies := [{ fromPath := "b.ts", toPath := "big.ts", count := 1,
                       importedTypes := ["Big"] }]
    metadata := { timestamp := 0, workspaceRoot := "/w", fileCount := 1,
                  totalLOC := 5, analyzedExtensions := [".ts"], durationMs := 0 } }

/-- A stub cluster for concrete cardinality inputs. -/
def stubCluster : Cluster :=
  { id := "c", label := "L", description := "D", files := ["f.ts"], keyFiles := [],
    color := none, layer := none, version := 2, componentType := none,
    technology := none, responsibilities := none }

/-- An inventory with no files, used for concrete hash inputs. -/
def inventoryC8a : RepoInventory :=
  { files := [], dependencies := [],
    metadata := { timestamp := 1, workspaceRoot := "/w1", fileCount := 0, totalLOC := 7,
                  analyzedExtensions := [], durationMs := 0 } }

/-- `inventoryC8a` relocated to a different workspace root. -/
def inventoryC8b : RepoInventory :=
  { files := [], dependencies := [],
    metadata := { timestamp := 1, workspaceRoot := "/w2", fileCount := 0, totalLOC := 7,
                  analyzedExtensions := [], durationMs := 0 } }

/-- `inventoryC8a` re-analyzed at a later timestamp. -/
def inventoryC8c : RepoInventory :=
  { files := [], dependencies := [],
    metadata := { timestamp := 2, workspaceRoot := "/w1", fileCount := 0, totalLOC := 7,
                  analyzedExtensions := [], durationMs := 0 } }

/-- The trivial inventory used for concrete clustering runs. -/
def inventoryC4 : RepoInventory :=
  { files := [], dependencies := [],
    metadata := { timestamp := 1, workspaceRoot := "/w", fileCount := 0, totalLOC := 0,
                  analyzedExtensions := [], durationMs := 0 } }

/-- A base graph with clusters `a`, `b`, `c` for concrete trace runs. -/
def graphC5 : ClusterGraph :=
  { id := some "g1"
    clusters := [{ stubCluster with id := "a" }, { stubCluster with id := "b" },
                 { stubCluster with id := "c" }]
    clusterEdges := [{ id := "e-ab", source := "a", target := "b", weight := 1,
                       label := "uses", topDependencies := [], relationshipType := none,
                       protocol := none, description := none }]
    filteringDefaults := { minEdgeWeight := 2, collapsedClusters := [], visibleLayers := [] }
    metadata := none }

/-- A step referencing component `cid`. -/
def stepOn (cid : String) : ExecutionStep :=
  { stepNumber := 1, componentId := cid, description := "d"
    codeReference := { filePath := "f.ts", lineNumber := none, snippet := none }
    exampleData := { format := "json", sample := "x" }
    transitionTo := none }

/-- `firstSeen` with an already-seen accumulator, mirroring the fold
state of `jsDedup`. -/
def firstSeenAux (acc : List String) : List String → List String
  | [] => []
  | x :: xs => if x ∈ acc then firstSeenAux acc xs else x :: firstSeenAux (acc ++ [x]) xs

/-- The trace produced for steps `a`, `b`, `c` over `graphC5` (which has
an edge for `a → b` but none for `b → c`). -/
def traceC6 : ComponentExecutionTrace :=
  { id := "", baseDiagramId := "g1", entryPoint := "entry",
    steps := [stepOn "a", stepOn "b", stepOn "c"],
    highlightedComponents := ["a", "b", "c"],
    animatedEdges := [{ edgeId := "e-ab", animationOrder := 1, durationMs := 1000 }],
    metadata := { timestamp := 7, totalSteps := 3, componentsInvolved := 3 },
    name := some "nm" }

/-- A collaborator response whose trailing commentary contains its own
braces: `ok {"a":1} see {fig}` (braces written as escapes). -/
def respC9 : String := "ok \x7b\"a\":1\x7d see \x7bfig\x7d"

def findByKey (l : List DependencyEdge) (k : String) : Option DependencyEdge :=
  l.find? (fun e => edgeKey e == k)

def sumCounts (deps : List RawDependency) (k : String) : Nat :=
  ((deps.filter (fun d => rawKey d == k)).map (·.count)).sum

def typesMem (deps : List RawDependency) (k : String) (x : String) : Prop :=
  ∃ d ∈ deps, rawKey d = k ∧ x ∈ d.types

def NodupKeys (l : List DependencyEdge) : Prop := (l.map edgeKey).Nodup

def freshEdge (d : RawDependency) : DependencyEdge :=
  { fromPath := d.fromPath, toPath := d.toPath, count := d.count, importedTypes := d.types }

/-- A raw dependency whose `from` path contains the `:::` key separator. -/
def depX : RawDependency := ⟨"a:::b", "c", 1, []⟩

/-- A distinct (from, to) pair with the same aggregation key as `depX`. -/
def depY : RawDependency := ⟨"a", "b:::c", 1, []⟩

/-- A collision-free concrete raw dependency. -/
def depW1 : RawDependency := ⟨"a.ts", "b.ts", 1, ["x"]⟩

/-- Another collision-free concrete raw dependency. -/
def depW2 : RawDependency := ⟨"c.ts", "d.ts", 2, ["y"]⟩

/-! ## Helper lemmas -/

theorem updateEdge_fromPath (d : RawDependency) (e : DependencyEdge) :
    (updateEdge d e).fromPath = e.fromPath := rfl

theorem updateEdge_toPath (d : RawDependency) (e : DependencyEdge) :
    (updateEdge d e).toPath = e.toPath := rfl

/-- Every edge present after one `insertAgg` step keeps the endpoints of
an edge already in the accumulator or takes those of the inserted raw
dependency. -/
theorem insertAgg_fromTo (acc : List DependencyEdge) (d : RawDependency) :
    ∀ e ∈ insertAgg acc d,
      (∃ e₀ ∈ acc, e.fromPath = e₀.fromPath ∧ e.toPath = e₀.toPath) ∨
      (e.fromPath = d.fromPath ∧ e.toPath = d.toPath) := by
  intro e he
  unfold insertAgg at he
  by_cases hany : acc.any (fun e => edgeKey e == rawKey d)
  · rw [if_pos hany] at he
    rcases List.mem_map.mp he with ⟨e₀, he₀, hdef⟩
    left
    refine ⟨e₀, he₀, ?_⟩
    by_cases hk : edgeKey e₀ == rawKey d
    · simp only [hk, if_pos] at hdef
      subst hdef
      exact ⟨updateEdge_fromPath d e₀, updateEdge_toPath d e₀⟩
    · simp only [hk] at hdef
      simp only [Bool.false_eq_true, if_false] at hdef
      subst hdef
      exact ⟨rfl, rfl⟩
  · rw [if_neg hany] at he
    rcases List.mem_append.mp he with h | h
    · exact Or.inl ⟨e, h, rfl, rfl⟩
    · rcases List.mem_singleton.mp h with rfl
      exact Or.inr ⟨rfl, rfl⟩

/-- Endpoint provenance through the whole aggregation fold. -/
theorem foldl_insertAgg_fromTo (deps : List RawDependency) (acc : List DependencyEdge) :
    ∀ e ∈ deps.foldl insertAgg acc,
      (∃ e₀ ∈ acc, e.fromPath = e₀.fromPath ∧ e.toPath = e₀.toPath) ∨
      (∃ d ∈ deps, e.fromPath = d.fromPath ∧ e.toPath = d.toPath) := by
  induction deps generalizing acc with
  | nil => intro e he; exact Or.inl ⟨e, he, rfl, rfl⟩
  | cons d rest ih =>
    intro e he
    rcases ih (insertAgg acc d) e he with ⟨e₁, he₁, hf, ht⟩ | ⟨d₁, hd₁, hf, ht⟩
    · rcases insertAgg_fromTo acc d e₁ he₁ with ⟨e₀, he₀, hf₀, ht₀⟩ | ⟨hf₀, ht₀⟩
      · exact Or.inl ⟨e₀, he₀, hf.trans hf₀, ht.trans ht₀⟩
      · exact Or.inr ⟨d, List.mem_cons_self _ _, hf.trans hf₀, ht.trans ht₀⟩
    · exact Or.inr ⟨d₁, List.mem_cons_of_mem _ hd₁, hf, ht⟩

/-- Endpoint provenance for `aggregateDependencies`. -/
theorem aggregateDependencies_fromTo (deps : List RawDependency) :
    ∀ e ∈ aggregateDependencies deps,
      ∃ d ∈ deps, e.fromPath = d.fromPath ∧ e.toPath = d.toPath := by
  intro e he
  rcases foldl_insertAgg_fromTo deps [] e he with ⟨e₀, he₀, _⟩ | h
  · cases he₀
  · exact h

/-- Every raw dependency built by `generateInventory` takes its `from`
endpoint from the path of an analyzed record. -/
theorem buildRawDeps_fromPath (rel : String → String) (records : List FileRecord) :
    ∀ d ∈ buildRawDeps rel records, ∃ r ∈ records, d.fromPath = r.path := by
  intro d hd
  rcases List.mem_flatMap.mp hd with ⟨r, hr, hmem⟩
  rcases List.mem_filterMap.mp hmem with ⟨imp, _, hdef⟩
  refine ⟨r, hr, ?_⟩
  cases himp : imp.resolvedPath with
  | none => rw [himp] at hdef; cases hdef
  | some p => rw [himp] at hdef; cases hdef; rfl

/-! ## C1 -/

/-- C1, amended: `generateInventory` does not consult `isTypeOnly` when
accumulating dependency edges — an import with a resolved local target
contributes a `DependencyEdge` whether or not it is type-only.  Formally,
overwriting every import's `isTypeOnly` flag (in either direction) leaves
the accumulated raw dependencies, and hence the aggregated
`DependencyEdge` collection, unchanged. -/
theorem C1_theorem (rel : String → String) (records : List FileRecord) (b : Bool) :
    buildRawDeps rel (records.map (setImportsTypeOnly b)) = buildRawDeps rel records := by
  induction records with
  | nil => rfl
  | cons r rest ih =>
    simp only [List.map_cons, buildRawDeps, List.flatMap_cons] at ih ⊢
    refine congrArg₂ _ ?_ ih
    simp only [setImportsTypeOnly, List.filterMap_map]
    rfl

/-- C1, counterexample: the sole import of the scanned file is flagged
`isTypeOnly`, yet `generateInventory` emits a `DependencyEdge` derived
from it. -/
theorem C1_counterexample :
    (∀ imp ∈ recordC1.imports, imp.isTypeOnly = true) ∧
    ((generateInventory ["/w/b.ts"] analyzeC1 relC1 "/w" 0 0 [".ts"]).toOption.map
      (fun inv => inv.dependencies))
      = some [{ fromPath := "b.ts", toPath := "a.ts", count := 1, importedTypes := ["foo"] }] :=
  ⟨by decide, rfl⟩

/-! ## C2 -/

/-- C2, amended: in every inventory returned by `generateInventory`, the
`from` endpoint of each `DependencyEdge` is the path of a `FileRecord`
present in the same inventory.  (The `to` endpoint has no such guarantee:
a resolved import target that was itself skipped or excluded leaves a
dangling `to`, as the counterexample shows.) -/
theorem C2_theorem (scanned : List String) (analyze : String → Option FileRecord)
    (rel : String → String) (workspaceRoot : String) (timestamp durationMs : Nat)
    (extensions : List String) (inv : RepoInventory)
    (h : generateInventory scanned analyze rel workspaceRoot timestamp durationMs extensions
          = .ok inv) :
    ∀ e ∈ inv.dependencies, e.fromPath ∈ inv.files.map (·.path) := by
  unfold generateInventory at h
  by_cases hlen : scanned.length = 0
  · rw [if_pos hlen] at h; cases h
  · rw [if_neg hlen] at h
    cases h
    intro e he
    rcases aggregateDependencies_fromTo _ e he with ⟨d, hd, hf, _⟩
    rcases buildRawDeps_fromPath rel _ d hd with ⟨r, hr, hfr⟩
    exact List.mem_map.mpr ⟨r, hr, (hf.trans hfr).symm⟩

/-- C2, counterexample: the import target `big.ts` was scanned but skipped
by `analyzeFile`, so the returned inventory carries a `DependencyEdge`
whose `to` endpoint (`big.ts`) matches no `FileRecord.path` — a dangling
local edge. -/
theorem C2_counterexample :
    ((generateInventory ["/w/b.ts", "/w/big.ts"] analyzeC2 relC2 "/w" 0 0 [".ts"]).toOption.map
      (fun inv => (inv.dependencies.map (fun e => e.toPath), inv.files.map (fun f => f.path))))
      = some (["big.ts"], ["b.ts"]) :=
  rfl

/-- Witness for `C2_theorem` at the C2 scenario input and its single
dependency edge. -/
theorem C2_witness :
    ({ fromPath := "b.ts", toPath := "big.ts", count := 1,
       importedTypes := ["Big"] } : DependencyEdge).fromPath
      ∈ inventoryC2.files.map (·.path) :=
  C2_theorem ["/w/b.ts", "/w/big.ts"] analyzeC2 relC2 "/w" 0 0 [".ts"] inventoryC2 rfl
    { fromPath := "b.ts", toPath := "big.ts", count := 1, importedTypes := ["Big"] }
    (by decide)

/-! ## C10 -/

/-- C10, confirmed: `generateInventory` raises the fatal
no-files-found error whenever the scan produced zero eligible files, and
conversely every successfully returned inventory came from a non-empty
scan — an empty workspace can never yield a `RepoInventory`. -/
theorem C10_theorem (scanned : List String) (analyze : String → Option FileRecord)
    (rel : String → String) (workspaceRoot : String) (timestamp durationMs : Nat)
    (extensions : List String) :
    (scanned = [] →
      generateInventory scanned analyze rel workspaceRoot timestamp durationMs extensions
        = .error "No TypeScript/JavaScript files found in workspace") ∧
    (∀ inv, generateInventory scanned analyze rel workspaceRoot timestamp durationMs extensions
        = .ok inv → scanned ≠ []) := by
  constructor
  · intro hempty
    subst hempty
    rfl
  · intro inv hok hempty
    subst hempty
    cases hok

/-- Witness for `C10_theorem` on an empty scan result. -/
theorem C10_witness :
    generateInventory [] analyzeC1 relC1 "/w" 0 0 [".ts"]
      = .error "No TypeScript/JavaScript files found in workspace" :=
  (C10_theorem [] analyzeC1 relC1 "/w" 0 0 [".ts"]).1 rfl

/-! ## Inversion lemmas for the clustering pipeline -/

/-- Inverting the cardinality refinement. -/
theorem clustersCardinalityCheck_ok {cs cs' : List Cluster}
    (h : clustersCardinalityCheck cs = .ok cs') :
    cs' = cs ∧ 5 ≤ cs.length ∧ cs.length ≤ 12 := by
  unfold clustersCardinalityCheck at h
  by_cases h5 : cs.length < 5
  · rw [if_pos h5] at h; cases h
  · rw [if_neg h5] at h
    by_cases h12 : cs.length > 12
    · rw [if_pos h12] at h; cases h
    · rw [if_neg h12] at h
      cases h
      exact ⟨rfl, by omega, by omega⟩

/-- A cluster graph accepted by the Zod schema has 5 to 12 clusters. -/
theorem zodParseClusterGraph_card (j : Json) (g : ClusterGraph)
    (h : zodParseClusterGraph j = .ok g) :
    5 ≤ g.clusters.length ∧ g.clusters.length ≤ 12 := by
  unfold zodParseClusterGraph at h
  simp only [bind, Except.bind, pure, Except.pure] at h
  repeat' split at h
  any_goals cases h
  obtain ⟨heq, hlo, hhi⟩ :=
    clustersCardinalityCheck_ok (by assumption : clustersCardinalityCheck _ = Except.ok _)
  subst heq
  exact ⟨hlo, hhi⟩

/-- A successful attempt passed the Zod schema. -/
theorem processParsed_ok_zod {inventory : RepoInventory} {d : Json} {g : ClusterGraph}
    (h : processParsed inventory d = .ok g) : zodParseClusterGraph d = .ok g := by
  unfold processParsed at h
  cases hz : zodParseClusterGraph d with
  | error e => rw [hz] at h; cases h
  | ok cg =>
    rw [hz] at h
    by_cases he : (validateClusterGraph cg inventory).isEmpty
    · simp only [he, if_pos] at h
      cases h
      rfl
    · simp only [he] at h
      simp only [Bool.false_eq_true, if_false] at h
      cases h

/-- A successful attempt reached `processParsed` on some parsed JSON
value. -/
theorem processResponse_ok_parsed {inventory : RepoInventory} {responseText : String}
    {g : ClusterGraph} (h : processResponse inventory responseText = .ok g) :
    ∃ d, processParsed inventory d = .ok g := by
  unfold processResponse at h
  repeat' split at h
  any_goals cases h
  exact ⟨_, h⟩

/-- A graph returned by the retry loop is a finalized graph from a
successful attempt on one of the collaborator responses. -/
theorem clusterLoop_ok (inventory : RepoInventory) (responses : Nat → String)
    (userHint : Option String) (idStr : String) (now : Nat) (sha : String → String) :
    ∀ (k attempts : Nat) (lastError : String), maxAttempts - attempts ≤ k →
      ∀ g, (clusterLoop inventory responses userHint idStr now sha attempts lastError).1
            = .ok g →
      ∃ n cg, processResponse inventory (responses n) = .ok cg ∧
        g = finalizeGraph cg idStr now inventory sha := by
  intro k
  induction k with
  | zero =>
    intro attempts lastError hk g hok
    rw [clusterLoop] at hok
    have hge : ¬ attempts < maxAttempts := by omega
    rw [dif_neg hge] at hok
    cases hok
  | succ n ih =>
    intro attempts lastError hk g hok
    rw [clusterLoop] at hok
    by_cases h : attempts < maxAttempts
    · rw [dif_pos h] at hok
      cases hpr : processResponse inventory (responses attempts) with
      | ok cg =>
        rw [hpr] at hok
        simp only at hok
        cases hok
        exact ⟨attempts, cg, hpr, rfl⟩
      | error e =>
        rw [hpr] at hok
        simp only at hok
        by_cases hlast : attempts + 1 ≥ maxAttempts
        · rw [if_pos hlast] at hok; cases hok
        · rw [if_neg hlast] at hok
          simp only at hok
          exact ih (attempts + 1) (feedbackFor e) (by omega) g hok
    · rw [dif_neg h] at hok; cases hok

/-- `clusterArchitecture` version of `clusterLoop_ok`. -/
theorem clusterArchitecture_ok {inventory : RepoInventory} {responses : Nat → String}
    {userHint : Option String} {idStr : String} {now : Nat} {sha : String → String}
    {g : ClusterGraph}
    (h : (clusterArchitecture inventory responses userHint idStr now sha).1 = .ok g) :
    ∃ n cg, processResponse inventory (responses n) = .ok cg ∧
      g = finalizeGraph cg idStr now inventory sha :=
  clusterLoop_ok inventory responses userHint idStr now sha maxAttempts 0 ""
    (by omega) g h

/-! ## C3 -/

/-- C3, confirmed: the schema's cardinality refinement rejects every
clusters array with fewer than 5 or more than 12 entries and passes every
array with 5 to 12; consequently Zod validation never accepts an
out-of-range candidate, and every graph `clusterArchitecture` returns
has 5 to 12 clusters (an out-of-range candidate makes the attempt fail). -/
theorem C3_theorem :
    (∀ cs : List Cluster, cs.length < 5 ∨ 12 < cs.length →
      ∃ e, clustersCardinalityCheck cs = .error e) ∧
    (∀ cs : List Cluster, 5 ≤ cs.length → cs.length ≤ 12 →
      clustersCardinalityCheck cs = .ok cs) ∧
    (∀ (j : Json) (g : ClusterGraph), zodParseClusterGraph j = .ok g →
      5 ≤ g.clusters.length ∧ g.clusters.length ≤ 12) ∧
    (∀ (inventory : RepoInventory) (responses : Nat → String) (userHint : Option String)
        (idStr : String) (now : Nat) (sha : String → String) (g : ClusterGraph),
      (clusterArchitecture inventory responses userHint idStr now sha).1 = .ok g →
      5 ≤ g.clusters.length ∧ g.clusters.length ≤ 12) := by
  refine ⟨?_, ?_, ?_, ?_⟩
  · intro cs hrange
    unfold clustersCardinalityCheck
    by_cases h5 : cs.length < 5
    · rw [if_pos h5]; exact ⟨_, rfl⟩
    · rw [if_neg h5, if_pos (by omega)]; exact ⟨_, rfl⟩
  · intro cs hlo hhi
    unfold clustersCardinalityCheck
    rw [if_neg (by omega), if_neg (by omega)]
  · exact zodParseClusterGraph_card
  · intro inventory responses userHint idStr now sha g h
    obtain ⟨n, cg, hpr, rfl⟩ := clusterArchitecture_ok h
    obtain ⟨d, hpp⟩ := processResponse_ok_parsed hpr
    exact zodParseClusterGraph_card d cg (processParsed_ok_zod hpp)

/-- Witness for `C3_theorem`: two clusters are rejected, six pass the
cardinality check. -/
theorem C3_witness :
    (∃ e, clustersCardinalityCheck (List.replicate 2 stubCluster) = .error e) ∧
    clustersCardinalityCheck (List.replicate 6 stubCluster)
      = .ok (List.replicate 6 stubCluster) :=
  ⟨C3_theorem.1 (List.replicate 2 stubCluster) (by simp),
   C3_theorem.2.1 (List.replicate 6 stubCluster) (by simp) (by simp)⟩

/-! ## C8 -/

/-- C8, amended: the `sourceInventoryHash` stored with every successfully
generated cluster graph is a hash over exactly the inventory's file
count, total lines of code, and analysis timestamp — not the workspace
path.  Inventories agreeing on those three values hash equal (for
whatever digest function is plugged in), and the hash input drops the
workspace identity entirely. -/
theorem C8_theorem :
    (∀ (sha : String → String) (inv₁ inv₂ : RepoInventory),
      inv₁.files.length = inv₂.files.length →
      inv₁.metadata.totalLOC = inv₂.metadata.totalLOC →
      inv₁.metadata.timestamp = inv₂.metadata.timestamp →
      hashInventory sha inv₁ = hashInventory sha inv₂) ∧
    (∀ (inventory : RepoInventory) (responses : Nat → String) (userHint : Option String)
        (idStr : String) (now : Nat) (sha : String → String) (g : ClusterGraph),
      (clusterArchitecture inventory responses userHint idStr now sha).1 = .ok g →
      ∃ md, g.metadata = some md ∧ md.sourceInventoryHash = hashInventory sha inventory) := by
  constructor
  · intro sha inv₁ inv₂ hcount hloc hts
    unfold hashInventory hashInventoryInput
    rw [hcount, hloc, hts]
  · intro inventory responses userHint idStr now sha g h
    obtain ⟨n, cg, _, rfl⟩ := clusterArchitecture_ok h
    exact ⟨_, rfl, rfl⟩

/-- C8, counterexample: changing only the workspace path leaves the hash
input — hence the hash, for any digest — unchanged, while changing only
the timestamp (a value the claim excludes from the hash) changes the
hash input.  The stored hash is therefore not a function of
(file count, LOC, workspace identity). -/
theorem C8_counterexample :
    inventoryC8a.metadata.workspaceRoot ≠ inventoryC8b.metadata.workspaceRoot ∧
    hashInventoryInput inventoryC8a = hashInventoryInput inventoryC8b ∧
    inventoryC8a.metadata.workspaceRoot = inventoryC8c.metadata.workspaceRoot ∧
    inventoryC8a.files.length = inventoryC8c.files.length ∧
    inventoryC8a.metadata.totalLOC = inventoryC8c.metadata.totalLOC ∧
    hashInventoryInput inventoryC8a ≠ hashInventoryInput inventoryC8c := by
  refine ⟨by decide, rfl, rfl, rfl, rfl, by decide⟩

/-- Witness for `C8_theorem` at concrete inventories. -/
theorem C8_witness :
    hashInventory (fun s => s) inventoryC8a = hashInventory (fun s => s) inventoryC8b :=
  C8_theorem.1 (fun s => s) inventoryC8a inventoryC8b rfl rfl rfl

/-! ## C4 -/

/-- A string chunk is an infix of any append chain surrounding it. -/
theorem str_infix_middle (a b c : String) : b.data <:+: ((a ++ b) ++ c).data :=
  ⟨a.data, c.data, by simp [String.data_append]⟩

/-- The failing attempt's error text sits inside the next prompt. -/
theorem error_infix_prompt (inventory : RepoInventory) (userHint : Option String)
    (e : String) :
    e.data <:+: (buildClusteringPrompt inventory userHint (feedbackFor e)).data := by
  have h1 : e.data <:+: (feedbackFor e).data := by
    unfold feedbackFor
    exact str_infix_middle _ _ _
  have h2 : (feedbackFor e).data
      <:+: (buildClusteringPrompt inventory userHint (feedbackFor e)).data := by
    unfold buildClusteringPrompt
    exact str_infix_middle _ _ _
  exact h1.trans h2

/-- One loop step that succeeds. -/
theorem clusterLoop_step_ok {inventory : RepoInventory} {responses : Nat → String}
    {userHint : Option String} {idStr : String} {now : Nat} {sha : String → String}
    {attempts : Nat} {lastError : String} {cg : ClusterGraph}
    (hlt : attempts < maxAttempts)
    (hpr : processResponse inventory (responses attempts) = .ok cg) :
    clusterLoop inventory responses userHint idStr now sha attempts lastError
      = (.ok (finalizeGraph cg idStr now inventory sha),
         [buildClusteringPrompt inventory userHint lastError]) := by
  rw [clusterLoop, dif_pos hlt, hpr]

/-- One loop step that fails on the final permitted attempt. -/
theorem clusterLoop_step_exhaust {inventory : RepoInventory} {responses : Nat → String}
    {userHint : Option String} {idStr : String} {now : Nat} {sha : String → String}
    {attempts : Nat} {lastError : String} {e : String}
    (hlt : attempts < maxAttempts) (hlast : attempts + 1 ≥ maxAttempts)
    (hpr : processResponse inventory (responses attempts) = .error e) :
    clusterLoop inventory responses userHint idStr now sha attempts lastError
      = (.error ("LLM clustering failed after " ++ toString maxAttempts
          ++ " attempts. Last error: " ++ e),
         [buildClusteringPrompt inventory userHint lastError]) := by
  rw [clusterLoop, dif_pos hlt, hpr]
  simp only [if_pos hlast]

/-- One loop step that fails with attempts remaining. -/
theorem clusterLoop_step_retry {inventory : RepoInventory} {responses : Nat → String}
    {userHint : Option String} {idStr : String} {now : Nat} {sha : String → String}
    {attempts : Nat} {lastError : String} {e : String}
    (hnext : attempts + 1 < maxAttempts)
    (hpr : processResponse inventory (responses attempts) = .error e) :
    clusterLoop inventory responses userHint idStr now sha attempts lastError
      = ((clusterLoop inventory responses userHint idStr now sha (attempts + 1)
            (feedbackFor e)).1,
         buildClusteringPrompt inventory userHint lastError
           :: (clusterLoop inventory responses userHint idStr now sha (attempts + 1)
                (feedbackFor e)).2) := by
  rw [clusterLoop, dif_pos (by omega : attempts < maxAttempts), hpr]
  simp only [if_neg (by omega : ¬ attempts + 1 ≥ maxAttempts)]

/-- C4, confirmed: the retry loop submits at most 3 prompts to the
collaborator; whenever a later prompt exists (meaning the previous
attempt failed and retries remained), the previous attempt's error text
is embedded verbatim in it; and when all three attempts fail, the raised
error carries the final attempt's error verbatim. -/
theorem C4_theorem (inventory : RepoInventory) (responses : Nat → String)
    (userHint : Option String) (idStr : String) (now : Nat) (sha : String → String) :
    (clusterArchitecture inventory responses userHint idStr now sha).2.length ≤ 3 ∧
    (∀ (k : Nat) (e p : String),
      processResponse inventory (responses k) = .error e →
      (clusterArchitecture inventory responses userHint idStr now sha).2[k + 1]? = some p →
      e.data <:+: p.data) ∧
    (∀ e₀ e₁ e₂ : String,
      processResponse inventory (responses 0) = .error e₀ →
      processResponse inventory (responses 1) = .error e₁ →
      processResponse inventory (responses 2) = .error e₂ →
      (clusterArchitecture inventory responses userHint idStr now sha).1
        = .error ("LLM clustering failed after 3 attempts. Last error: " ++ e₂)) := by
  unfold clusterArchitecture
  cases h0 : processResponse inventory (responses 0) with
  | ok cg0 =>
    rw [clusterLoop_step_ok (by decide) h0]
    refine ⟨by simp, ?_, ?_⟩
    · intro k e p _ hp
      simp at hp
    · intro e₀ e₁ e₂ h0' _ _
      cases h0'
  | error e0 =>
    rw [clusterLoop_step_retry (by decide) h0]
    cases h1 : processResponse inventory (responses 1) with
    | ok cg1 =>
      rw [clusterLoop_step_ok (by decide) h1]
      refine ⟨by simp, ?_, ?_⟩
      · intro k e p hpe hp
        match k, hp with
        | 0, hp =>
          cases hp
          rw [h0] at hpe
          cases hpe
          exact error_infix_prompt inventory userHint e0
      · intro e₀ e₁ e₂ _ h1' _
        cases h1'
    | error e1 =>
      rw [clusterLoop_step_retry (by decide) h1]
      cases h2 : processResponse inventory (responses 2) with
      | ok cg2 =>
        rw [clusterLoop_step_ok (by decide) h2]
        refine ⟨by simp, ?_, ?_⟩
        · intro k e p hpe hp
          match k, hp with
          | 0, hp =>
            cases hp
            rw [h0] at hpe
            cases hpe
            exact error_infix_prompt inventory userHint e0
          | 1, hp =>
            cases hp
            rw [h1] at hpe
            cases hpe
            exact error_infix_prompt inventory userHint e1
        · intro e₀ e₁ e₂ _ _ h2'
          cases h2'
      | error e2 =>
        rw [clusterLoop_step_exhaust (by decide) (by decide) h2]
        refine ⟨by simp, ?_, ?_⟩
        · intro k e p hpe hp
          match k, hp with
          | 0, hp =>
            cases hp
            rw [h0] at hpe
            cases hpe
            exact error_infix_prompt inventory userHint e0
          | 1, hp =>
            cases hp
            rw [h1] at hpe
            cases hpe
            exact error_infix_prompt inventory userHint e1
        · intro e₀ e₁ e₂ h0' h1' h2'
          cases h2'
          rfl

/-- Witness for `C4_theorem`: a collaborator that never returns JSON
exhausts all three attempts and surfaces the no-JSON error verbatim. -/
theorem C4_witness :
    (clusterArchitecture inventoryC4 (fun _ => "no json here") none "id" 0 (fun s => s)).2.length
      ≤ 3 ∧
    (clusterArchitecture inventoryC4 (fun _ => "no json here") none "id" 0 (fun s => s)).1
      = .error ("LLM clustering failed after 3 attempts. Last error: "
          ++ "No JSON object found in LLM response") :=
  ⟨(C4_theorem inventoryC4 (fun _ => "no json here") none "id" 0 (fun s => s)).1,
   (C4_theorem inventoryC4 (fun _ => "no json here") none "id" 0 (fun s => s)).2.2
     "No JSON object found in LLM response" "No JSON object found in LLM response"
     "No JSON object found in LLM response" rfl rfl rfl⟩

/-! ## C5 -/

/-- Membership through the `Array.from(new Set(...))` model. -/
theorem mem_jsDedup_iff (x : String) (l : List String) : x ∈ jsDedup l ↔ x ∈ l := by
  have haux : ∀ (l acc : List String),
      x ∈ l.foldl (fun acc y => if y ∈ acc then acc else acc ++ [y]) acc
        ↔ x ∈ acc ∨ x ∈ l := by
    intro l
    induction l with
    | nil => intro acc; simp
    | cons y ys ih =>
      intro acc
      rw [List.foldl_cons, ih]
      by_cases hy : y ∈ acc
      · rw [if_pos hy]
        constructor
        · rintro (h | h)
          · exact Or.inl h
          · exact Or.inr (List.mem_cons_of_mem _ h)
        · rintro (h | h)
          · exact Or.inl h
          · rcases List.mem_cons.mp h with rfl | h
            · exact Or.inl hy
            · exact Or.inr h
      · rw [if_neg hy]
        constructor
        · rintro (h | h)
          · rcases List.mem_append.mp h with h | h
            · exact Or.inl h
            · rcases List.mem_singleton.mp h with rfl
              exact Or.inr (List.mem_cons_self _ _)
          · exact Or.inr (List.mem_cons_of_mem _ h)
        · rintro (h | h)
          · exact Or.inl (List.mem_append.mpr (Or.inl h))
          · rcases List.mem_cons.mp h with rfl | h
            · exact Or.inl (List.mem_append.mpr (Or.inr (List.mem_singleton.mpr rfl)))
            · exact Or.inr h
  rw [jsDedup, haux]
  simp

theorem infix_append_right {l₁ l₂ : List Char} (l₃ : List Char) (h : l₁ <:+: l₂) :
    l₁ <:+: l₂ ++ l₃ := by
  rcases h with ⟨s, t, rfl⟩
  exact ⟨s, t ++ l₃, by simp⟩

theorem infix_append_left {l₁ l₂ : List Char} (l₃ : List Char) (h : l₁ <:+: l₂) :
    l₁ <:+: l₃ ++ l₂ := by
  rcases h with ⟨s, t, rfl⟩
  exact ⟨l₃ ++ s, t, by simp⟩

/-- Every element of a joined list is an infix of the join. -/
theorem mem_infix_joinSep (sep : String) :
    ∀ (l : List String), ∀ x ∈ l, x.data <:+: (joinSep sep l).data := by
  intro l
  induction l with
  | nil => intro x hx; cases hx
  | cons y ys ih =>
    intro x hx
    rcases List.mem_cons.mp hx with rfl | hx
    · cases ys with
      | nil => exact List.infix_refl _
      | cons z zs =>
        show x.data <:+: ((x ++ sep) ++ joinSep sep (z :: zs)).data
        rw [String.data_append, String.data_append]
        exact infix_append_right _ (infix_append_right _ (List.infix_refl _))
    · cases ys with
      | nil => cases hx
      | cons z zs =>
        show x.data <:+: ((y ++ sep) ++ joinSep sep (z :: zs)).data
        rw [String.data_append]
        exact infix_append_left _ (ih x hx)

/-- C5, confirmed: whenever some step's `componentId` is not a cluster id
of the base graph, the trace builder returns an error (no trace is
constructed, hence none can be persisted) and the error text enumerates
every valid cluster id of the graph. -/
theorem C5_theorem (baseDiagramId entryPoint traceName : String)
    (steps : List ExecutionStep) (g : ClusterGraph) (now : Nat)
    (h : ∃ s ∈ steps, s.componentId ∉ g.clusters.map (·.id)) :
    ∃ msg, traceComponentExecution baseDiagramId entryPoint steps (some g) traceName now
        = .error msg ∧
      ∀ cid ∈ g.clusters.map (·.id), cid.data <:+: msg.data := by
  obtain ⟨s, hs, hbad⟩ := h
  have hne : steps.isEmpty = false := by
    cases steps with
    | nil => cases hs
    | cons a as => rfl
  have hcontains : (jsDedup (g.clusters.map (·.id))).contains s.componentId = false := by
    have : s.componentId ∉ jsDedup (g.clusters.map (·.id)) := by
      rw [mem_jsDedup_iff]
      exact hbad
    simp [this]
  have hmem : s ∈ steps.filter
      (fun step => !(jsDedup (g.clusters.map (·.id))).contains step.componentId) :=
    List.mem_filter.mpr ⟨hs, by rw [hcontains]; rfl⟩
  have hinv : ((steps.filter
      (fun step => !(jsDedup (g.clusters.map (·.id))).contains step.componentId)).map
        (·.componentId)).isEmpty = false := by
    cases hf : steps.filter
        (fun step => !(jsDedup (g.clusters.map (·.id))).contains step.componentId) with
    | nil => rw [hf] at hmem; cases hmem
    | cons a as => rfl
  refine ⟨"Invalid componentId(s): "
      ++ joinSep ", " ((steps.filter
          (fun step => !(jsDedup (g.clusters.map (·.id))).contains step.componentId)).map
            (·.componentId))
      ++ "\n\nValid cluster IDs from diagram \"" ++ baseDiagramId ++ "\":\n"
      ++ joinSep "\n" ((jsDedup (g.clusters.map (·.id))).map (fun id => "  - " ++ id)),
    ?_, ?_⟩
  · simp only [traceComponentExecution, hne, hinv, Bool.false_eq_true, if_false,
      Bool.not_false, if_true]
  · intro cid hcid
    have h1 : cid.data <:+: ("  - " ++ cid).data := by
      rw [String.data_append]
      exact infix_append_left _ (List.infix_refl _)
    have h2 : ("  - " ++ cid) ∈ (jsDedup (g.clusters.map (·.id))).map
        (fun id => "  - " ++ id) :=
      List.mem_map.mpr ⟨cid, (mem_jsDedup_iff _ _).mpr hcid, rfl⟩
    have h3 := mem_infix_joinSep "\n" _ _ h2
    refine (h1.trans h3).trans ?_
    rw [String.data_append]
    exact infix_append_left _ (List.infix_refl _)

/-- Witness for `C5_theorem`: a step referencing the unknown component
`z` makes the trace builder fail with a message covering `a`, `b`, `c`. -/
theorem C5_witness :
    ∃ msg, traceComponentExecution "g1" "entry" [stepOn "a", stepOn "z"] (some graphC5)
        "nm" 7 = .error msg ∧
      ∀ cid ∈ graphC5.clusters.map (·.id), cid.data <:+: msg.data :=
  C5_theorem "g1" "entry" "nm" [stepOn "a", stepOn "z"] graphC5 7
    ⟨stepOn "z", by decide, by decide⟩

/-! ## C6 -/

theorem jsDedup_foldl_aux (l acc : List String) :
    l.foldl (fun acc x => if x ∈ acc then acc else acc ++ [x]) acc
      = acc ++ firstSeenAux acc l := by
  induction l generalizing acc with
  | nil => simp [firstSeenAux]
  | cons x xs ih =>
    rw [List.foldl_cons]
    by_cases hx : x ∈ acc
    · rw [if_pos hx, ih, firstSeenAux, if_pos hx]
    · rw [if_neg hx, ih, firstSeenAux, if_neg hx]
      simp

theorem firstSeenAux_filter (l : List String) :
    ∀ acc, firstSeenAux acc l = firstSeen (l.filter (fun y => !acc.contains y)) := by
  induction l with
  | nil => intro acc; simp [firstSeenAux, firstSeen]
  | cons x xs ih =>
    intro acc
    by_cases hx : x ∈ acc
    · rw [firstSeenAux, if_pos hx, List.filter_cons, if_neg (by simp [hx]), ih]
    · rw [firstSeenAux, if_neg hx, List.filter_cons, if_pos (by simp [hx]), firstSeen, ih]
      congr 1
      rw [List.filter_filter]
      congr 1
      apply List.filter_congr
      intro y _
      by_cases hxy : y = x
      · subst hxy; simp
      · simp [hxy]

/-- `Array.from(new Set(l))` produces exactly the distinct elements of
`l` in first-seen order. -/
theorem jsDedup_eq_firstSeen (l : List String) : jsDedup l = firstSeen l := by
  rw [jsDedup, jsDedup_foldl_aux, firstSeenAux_filter]
  simp

/-- Every animated edge built from loop counter `i` onward has animation
order above `i`. -/
theorem buildAnimatedEdgesGo_min_order (baseGraph : ClusterGraph) :
    ∀ (ps : List (ExecutionStep × ExecutionStep)) (i : Nat),
      ∀ a ∈ buildAnimatedEdgesGo baseGraph i ps, i + 1 ≤ a.animationOrder := by
  intro ps
  induction ps with
  | nil => intro i a ha; cases ha
  | cons p rest ih =>
    intro i a ha
    obtain ⟨cur, nxt⟩ := p
    unfold buildAnimatedEdgesGo at ha
    cases hf : findClusterEdge baseGraph cur.componentId nxt.componentId with
    | some e =>
      rw [hf] at ha
      rcases List.mem_cons.mp ha with rfl | ha
      · exact Nat.le_refl _
      · exact Nat.le_of_succ_le (ih (i + 1) a ha)
    | none =>
      rw [hf] at ha
      exact Nat.le_of_succ_le (ih (i + 1) a ha)

/-- The animated edges with animation order `i + j + 1` are exactly the
ones demanded by consecutive pair `j` (relative to loop counter `i`): a
single entry recording the first matching `ClusterEdge` with the fixed
default duration, or nothing when no edge matches. -/
theorem buildAnimatedEdgesGo_entry (baseGraph : ClusterGraph) :
    ∀ (ps : List (ExecutionStep × ExecutionStep)) (i j : Nat)
      (cur nxt : ExecutionStep), ps[j]? = some (cur, nxt) →
      (buildAnimatedEdgesGo baseGraph i ps).filter
          (fun a => a.animationOrder == i + j + 1)
        = (match findClusterEdge baseGraph cur.componentId nxt.componentId with
           | some e => [{ edgeId := e.id, animationOrder := i + j + 1, durationMs := 1000 }]
           | none => []) := by
  intro ps
  induction ps with
  | nil => intro i j cur nxt hj; cases hj
  | cons p rest ih =>
    intro i j cur nxt hj
    obtain ⟨c, n⟩ := p
    cases j with
    | zero =>
      rw [List.getElem?_cons_zero] at hj
      cases hj
      unfold buildAnimatedEdgesGo
      have hrest : (buildAnimatedEdgesGo baseGraph (i + 1) rest).filter
          (fun a => a.animationOrder == i + 0 + 1) = [] := by
        rw [List.filter_eq_nil_iff]
        intro a ha
        have hmin := buildAnimatedEdgesGo_min_order baseGraph rest (i + 1) a ha
        simp only [beq_iff_eq]
        omega
      cases hf : findClusterEdge baseGraph cur.componentId nxt.componentId with
      | some e =>
        rw [List.filter_cons, if_pos (by simp), hrest]
      | none =>
        exact hrest
    | succ j' =>
      rw [List.getElem?_cons_succ] at hj
      have harith : i + (j' + 1) + 1 = (i + 1) + j' + 1 := by omega
      unfold buildAnimatedEdgesGo
      cases hf : findClusterEdge baseGraph c.componentId n.componentId with
      | some e =>
        rw [List.filter_cons, if_neg (by simp), harith]
        exact ih (i + 1) j' cur nxt hj
      | none =>
        rw [harith]
        exact ih (i + 1) j' cur nxt hj

/-- Every animated edge arises from a consecutive pair whose components
match a `ClusterEdge`. -/
theorem buildAnimatedEdgesGo_sound (baseGraph : ClusterGraph) :
    ∀ (ps : List (ExecutionStep × ExecutionStep)) (i : Nat),
      ∀ a ∈ buildAnimatedEdgesGo baseGraph i ps,
        ∃ j cur nxt e, ps[j]? = some (cur, nxt) ∧
          findClusterEdge baseGraph cur.componentId nxt.componentId = some e ∧
          a = { edgeId := e.id, animationOrder := i + j + 1, durationMs := 1000 } := by
  intro ps
  induction ps with
  | nil => intro i a ha; cases ha
  | cons p rest ih =>
    intro i a ha
    obtain ⟨c, n⟩ := p
    unfold buildAnimatedEdgesGo at ha
    cases hf : findClusterEdge baseGraph c.componentId n.componentId with
    | some e =>
      rw [hf] at ha
      rcases List.mem_cons.mp ha with rfl | ha
      · exact ⟨0, c, n, e, by simp, hf, rfl⟩
      · obtain ⟨j, cur, nxt, e', hj, hf', hdef⟩ := ih (i + 1) a ha
        exact ⟨j + 1, cur, nxt, e', by rw [List.getElem?_cons_succ]; exact hj, hf',
          by rw [hdef]; congr 1; omega⟩
    | none =>
      rw [hf] at ha
      obtain ⟨j, cur, nxt, e', hj, hf', hdef⟩ := ih (i + 1) a ha
      exact ⟨j + 1, cur, nxt, e', by rw [List.getElem?_cons_succ]; exact hj, hf',
        by rw [hdef]; congr 1; omega⟩

/-- A successfully built trace copies the steps and derives the
highlighted components and animated edges exactly as the handler does. -/
theorem traceComponentExecution_ok {baseDiagramId entryPoint traceName : String}
    {steps : List ExecutionStep} {g : ClusterGraph} {now : Nat}
    {trace : ComponentExecutionTrace}
    (h : traceComponentExecution baseDiagramId entryPoint steps (some g) traceName now
          = .ok trace) :
    trace.steps = steps ∧
    trace.highlightedComponents = jsDedup (steps.map (·.componentId)) ∧
    trace.animatedEdges = buildAnimatedEdges steps g := by
  unfold traceComponentExecution at h
  simp only at h
  repeat' split at h
  any_goals cases h
  exact ⟨rfl, rfl, rfl⟩

/-- C6, confirmed: for every step list the handler accepts, the derived
fields satisfy the claim: `highlightedComponents` is the distinct step
componentIds in first-seen order, and for every consecutive step pair the
animated edges carry exactly one entry (with the pair's 1-based position
as `animationOrder`, the matching edge's id, and the fixed 1000 ms
duration) when a `ClusterEdge` matches the pair, and no entry otherwise;
moreover every animated edge arises this way. -/
theorem C6_theorem (baseDiagramId entryPoint traceName : String)
    (steps : List ExecutionStep) (g : ClusterGraph) (now : Nat)
    (trace : ComponentExecutionTrace)
    (h : traceComponentExecution baseDiagramId entryPoint steps (some g) traceName now
          = .ok trace) :
    trace.highlightedComponents = firstSeen (steps.map (·.componentId)) ∧
    (∀ (j : Nat) (cur nxt : ExecutionStep), (steps.zip steps.tail)[j]? = some (cur, nxt) →
      trace.animatedEdges.filter (fun a => a.animationOrder == j + 1)
        = (match findClusterEdge g cur.componentId nxt.componentId with
           | some e => [{ edgeId := e.id, animationOrder := j + 1, durationMs := 1000 }]
           | none => [])) ∧
    (∀ a ∈ trace.animatedEdges, ∃ j cur nxt e,
      (steps.zip steps.tail)[j]? = some (cur, nxt) ∧
      findClusterEdge g cur.componentId nxt.componentId = some e ∧
      a = { edgeId := e.id, animationOrder := j + 1, durationMs := 1000 }) := by
  obtain ⟨hsteps, hhi, hanim⟩ := traceComponentExecution_ok h
  refine ⟨?_, ?_, ?_⟩
  · rw [hhi, jsDedup_eq_firstSeen]
  · intro j cur nxt hj
    rw [hanim]
    have hg := buildAnimatedEdgesGo_entry g (steps.zip steps.tail) 0 j cur nxt hj
    simpa [buildAnimatedEdges, Nat.zero_add] using hg
  · intro a ha
    rw [hanim] at ha
    unfold buildAnimatedEdges at ha
    obtain ⟨j, cur, nxt, e, hj, hf, hdef⟩ :=
      buildAnimatedEdgesGo_sound g (steps.zip steps.tail) 0 a ha
    exact ⟨j, cur, nxt, e, hj, hf, by rw [hdef]; congr 1; omega⟩

/-- Witness for `C6_theorem` at the specification's own example: steps
`[a, b, c]` with a cluster edge for `a → b` and none for `b → c` yield
one animated edge with order 1 and nothing with order 2. -/
theorem C6_witness :
    traceC6.highlightedComponents
        = firstSeen ([stepOn "a", stepOn "b", stepOn "c"].map (·.componentId)) ∧
    traceC6.animatedEdges.filter (fun a => a.animationOrder == 0 + 1)
        = (match findClusterEdge graphC5 (stepOn "a").componentId (stepOn "b").componentId with
           | some e => [{ edgeId := e.id, animationOrder := 0 + 1, durationMs := 1000 }]
           | none => []) ∧
    traceC6.animatedEdges.filter (fun a => a.animationOrder == 1 + 1)
        = (match findClusterEdge graphC5 (stepOn "b").componentId (stepOn "c").componentId with
           | some e => [{ edgeId := e.id, animationOrder := 1 + 1, durationMs := 1000 }]
           | none => []) :=
  have h := C6_theorem "g1" "entry" "nm" [stepOn "a", stepOn "b", stepOn "c"] graphC5 7
    traceC6 rfl
  ⟨h.1, h.2.1 0 (stepOn "a") (stepOn "b") rfl, h.2.1 1 (stepOn "b") (stepOn "c") rfl⟩

/-! ## C9 -/

theorem findIdx?_none_of_not_mem {c : Char} {l : List Char} (h : c ∉ l) :
    l.findIdx? (· = c) = none :=
  List.findIdx?_eq_none_iff.mpr (fun x hx => by
    simp only [decide_eq_false_iff_not]
    rintro rfl
    exact h hx)

/-- A chunk starting with a brace-open and ending with a brace-close has
at least two characters. -/
theorem obj_two_le (O : List Char) (hhead : O.head? = some lbraceChar)
    (hlast : O.getLast? = some rbraceChar) : 2 ≤ O.length := by
  cases O with
  | nil => cases hhead
  | cons o t =>
    cases t with
    | nil =>
      rw [List.head?_cons] at hhead
      cases hhead
      simp at hlast
      exact absurd hlast (by decide)
    | cons a as => simp

theorem findIdx?_head_lbrace {O : List Char} (hhead : O.head? = some lbraceChar) :
    O.findIdx? (· = lbraceChar) = some 0 := by
  cases O with
  | nil => cases hhead
  | cons o t =>
    rw [List.head?_cons] at hhead
    cases hhead
    rw [List.findIdx?_cons]
    simp

theorem findIdx?_rev_rbrace {O : List Char} (hO1 : O ≠ [])
    (hlast : O.getLast? = some rbraceChar) :
    O.reverse.findIdx? (· = rbraceChar) = some 0 := by
  cases hrv : O.reverse with
  | nil => exact absurd (by simpa using hrv) hO1
  | cons r t =>
    have hr : O.reverse.head? = some r := by rw [hrv]; rfl
    rw [List.head?_reverse, hlast] at hr
    cases hr
    rw [List.findIdx?_cons]
    simp

/-- When no brace-open precedes the object and no brace-close follows it,
the greedy regex match is exactly the object chunk. -/
theorem extractJson_decomp (P O S : List Char)
    (hP : lbraceChar ∉ P) (hS : rbraceChar ∉ S)
    (hhead : O.head? = some lbraceChar) (hlast : O.getLast? = some rbraceChar) :
    extractJson ((P ++ O) ++ S) = some O := by
  have hO1 : O ≠ [] := by rintro rfl; cases hhead
  have hO2 : 2 ≤ O.length := obj_two_le O hhead hlast
  have h1 : ((P ++ O) ++ S).findIdx? (· = lbraceChar) = some P.length := by
    rw [List.findIdx?_append, List.findIdx?_append, findIdx?_none_of_not_mem hP,
      findIdx?_head_lbrace hhead]
    simp
  have h2 : ((P ++ O) ++ S).reverse.findIdx? (· = rbraceChar) = some S.length := by
    rw [List.reverse_append, List.reverse_append, List.findIdx?_append,
      List.findIdx?_append, findIdx?_none_of_not_mem (by simpa using hS),
      findIdx?_rev_rbrace hO1 hlast]
    simp
  unfold extractJson
  rw [h1, h2]
  simp only
  have hlen : ((P ++ O) ++ S).length = P.length + O.length + S.length := by
    simp [Nat.add_assoc]
  rw [if_pos (by rw [hlen]; omega)]
  have hj : ((P ++ O) ++ S).length - 1 - S.length = P.length + O.length - 1 := by
    rw [hlen]; omega
  rw [hj]
  have hdrop : ((P ++ O) ++ S).drop P.length = O ++ S := by
    rw [List.append_assoc, List.drop_left]
  rw [hdrop]
  have htake : P.length + O.length - 1 - P.length + 1 = O.length := by omega
  rw [htake, List.take_left]

/-- Any text containing a chunk that opens with a brace and closes with
one yields a regex match, whatever surrounds it. -/
theorem extractJson_ne_none (P O S : List Char)
    (hhead : O.head? = some lbraceChar) (hlast : O.getLast? = some rbraceChar) :
    extractJson ((P ++ O) ++ S) ≠ none := by
  have hO1 : O ≠ [] := by rintro rfl; cases hhead
  have hO2 := obj_two_le O hhead hlast
  have hi : ∃ i, ((P ++ O) ++ S).findIdx? (· = lbraceChar) = some i ∧ i ≤ P.length := by
    rw [List.findIdx?_append, List.findIdx?_append, findIdx?_head_lbrace hhead]
    cases hfp : P.findIdx? (· = lbraceChar) with
    | none => exact ⟨P.length, by simp, Nat.le_refl _⟩
    | some k =>
      have hk := (List.findIdx?_eq_some_iff_findIdx_eq.mp hfp).1
      exact ⟨k, by simp, by omega⟩
  have hj : ∃ jr, ((P ++ O) ++ S).reverse.findIdx? (· = rbraceChar) = some jr
      ∧ jr ≤ S.length := by
    rw [List.reverse_append, List.reverse_append, List.findIdx?_append,
      List.findIdx?_append, findIdx?_rev_rbrace hO1 hlast]
    cases hfs : S.reverse.findIdx? (· = rbraceChar) with
    | none => exact ⟨S.length, by simp, Nat.le_refl _⟩
    | some k =>
      have hk := (List.findIdx?_eq_some_iff_findIdx_eq.mp hfs).1
      rw [List.length_reverse] at hk
      exact ⟨k, by simp, by omega⟩
  obtain ⟨i, hi1, hi2⟩ := hi
  obtain ⟨jr, hj1, hj2⟩ := hj
  unfold extractJson
  rw [hi1, hj1]
  simp only
  have hlen : ((P ++ O) ++ S).length = P.length + O.length + S.length := by
    simp [Nat.add_assoc]
  rw [if_pos (by rw [hlen]; omega)]
  simp

/-- C9, amended: the code extracts the span from the first brace-open to
the last brace-close of the response, not "the first JSON object".  When
the commentary before the object contains no brace-open and the
commentary after it contains no brace-close, that span is exactly the
object and a parseable object is parsed and handed to validation, and the
attempt does not fail with the no-JSON error; but commentary braces
corrupt the span (see the counterexample).  The no-JSON error occurs only
when no brace-open precedes a brace-close — in particular never when the
response contains a JSON object chunk at all. -/
theorem C9_theorem :
    (∀ (inventory : RepoInventory) (pre obj post : String) (v : Json),
      lbraceChar ∉ pre.data → rbraceChar ∉ post.data →
      obj.data.head? = some lbraceChar → obj.data.getLast? = some rbraceChar →
      extractJson (pre ++ obj ++ post).data = some obj.data ∧
      (jsonParse obj = some v →
        processResponse inventory (pre ++ obj ++ post) = processParsed inventory v)) ∧
    (∀ (pre obj post : String),
      obj.data.head? = some lbraceChar → obj.data.getLast? = some rbraceChar →
      extractJson (pre ++ obj ++ post).data ≠ none) := by
  constructor
  · intro inventory pre obj post v hP hS hhead hlast
    have hdata : (pre ++ obj ++ post).data = (pre.data ++ obj.data) ++ post.data := by
      simp [String.data_append]
    have hx : extractJson ((pre.data ++ obj.data) ++ post.data) = some obj.data :=
      extractJson_decomp _ _ _ hP hS hhead hlast
    constructor
    · rw [hdata]; exact hx
    · intro hparse
      unfold processResponse
      rw [hdata]
      simp only [hx]
      have hmk : String.mk obj.data = obj := rfl
      rw [hmk]
      simp only [hparse]
  · intro pre obj post hhead hlast
    have hdata : (pre ++ obj ++ post).data = (pre.data ++ obj.data) ++ post.data := by
      simp [String.data_append]
    rw [hdata]
    exact extractJson_ne_none _ _ _ hhead hlast

/-- C9, counterexample: `respC9` contains the JSON object `{"a":1}`
surrounded by commentary, yet the attempt fails with a JSON syntax
error — the greedy regex grabbed everything up to the last brace of the
trailing commentary — instead of parsing the first JSON object as the
claim states. -/
theorem C9_counterexample :
    respC9 = "ok " ++ "\x7b\"a\":1\x7d" ++ " see \x7bfig\x7d" ∧
    jsonParse "\x7b\"a\":1\x7d" = some (Json.obj [("a", Json.num "1")]) ∧
    processResponse inventoryC4 respC9 = .error jsonSyntaxErrorMsg :=
  ⟨rfl, rfl, rfl⟩

/-- Witness for `C9_theorem` on brace-free commentary. -/
theorem C9_witness :
    extractJson ("ok " ++ "\x7b\"a\":1\x7d" ++ " done").data = some "\x7b\"a\":1\x7d".data ∧
    processResponse inventoryC4 ("ok " ++ "\x7b\"a\":1\x7d" ++ " done")
      = processParsed inventoryC4 (Json.obj [("a", Json.num "1")]) :=
  have h := C9_theorem.1 inventoryC4 "ok " "\x7b\"a\":1\x7d" " done"
    (Json.obj [("a", Json.num "1")]) (by decide) (by decide) (by decide) (by decide)
  ⟨h.1, h.2 rfl⟩

/-! ## C7 -/


theorem edgeKey_updateEdge (d : RawDependency) (e : DependencyEdge) :
    edgeKey (updateEdge d e) = edgeKey e := rfl

theorem edgeKey_freshEdge (d : RawDependency) : edgeKey (freshEdge d) = rawKey d := rfl

theorem mem_mergeTypes (x : String) :
    ∀ (ts ex : List String), x ∈ mergeTypes ex ts ↔ x ∈ ex ∨ x ∈ ts := by
  intro ts
  induction ts with
  | nil => intro ex; simp [mergeTypes]
  | cons t ts ih =>
    intro ex
    show x ∈ mergeTypes (if t ∈ ex then ex else ex ++ [t]) ts ↔ _
    rw [ih]
    by_cases ht : t ∈ ex
    · rw [if_pos ht]
      constructor
      · rintro (h | h)
        · exact Or.inl h
        · exact Or.inr (List.mem_cons_of_mem _ h)
      · rintro (h | h)
        · exact Or.inl h
        · rcases List.mem_cons.mp h with rfl | h
          · exact Or.inl ht
          · exact Or.inr h
    · rw [if_neg ht]
      constructor
      · rintro (h | h)
        · rcases List.mem_append.mp h with h | h
          · exact Or.inl h
          · exact Or.inr (List.mem_cons.mpr (Or.inl (List.mem_singleton.mp h)))
        · exact Or.inr (List.mem_cons_of_mem _ h)
      · rintro (h | h)
        · exact Or.inl (List.mem_append.mpr (Or.inl h))
        · rcases List.mem_cons.mp h with rfl | h
          · exact Or.inl (List.mem_append.mpr (Or.inr (List.mem_singleton.mpr rfl)))
          · exact Or.inr h

theorem any_iff_findByKey (acc : List DependencyEdge) (k : String) :
    acc.any (fun e => edgeKey e == k) = true ↔ (findByKey acc k).isSome := by
  rw [List.any_eq_true, findByKey, List.find?_isSome]

theorem updateMap_key_pred (d : RawDependency) (k : String) :
    ((fun e => edgeKey e == k) ∘
        (fun e => if edgeKey e == rawKey d then updateEdge d e else e))
      = (fun e => edgeKey e == k) := by
  funext e
  by_cases he : edgeKey e == rawKey d
  · simp only [Function.comp, he, if_pos, edgeKey_updateEdge]
  · simp only [Function.comp, he]
    simp

theorem findByKey_insertAgg_ne (acc : List DependencyEdge) (d : RawDependency)
    (k : String) (hk : rawKey d ≠ k) :
    findByKey (insertAgg acc d) k = findByKey acc k := by
  unfold insertAgg
  by_cases hany : acc.any (fun e => edgeKey e == rawKey d)
  · rw [if_pos hany]
    unfold findByKey
    rw [List.find?_map, updateMap_key_pred]
    cases hfind : acc.find? (fun e => edgeKey e == k) with
    | none => rfl
    | some e₁ =>
      have hkey := List.find?_some hfind
      rw [beq_iff_eq] at hkey
      have hcond : (edgeKey e₁ == rawKey d) = false := by
        rw [beq_eq_false_iff_ne, hkey]
        exact fun h => hk h.symm
      simp [hcond]
      exact fun h => absurd (hkey.symm.trans h) (fun hh => hk hh.symm)
  · rw [if_neg hany]
    unfold findByKey
    rw [List.find?_append]
    have hsingle : List.find? (fun e => edgeKey e == k)
        [(⟨d.fromPath, d.toPath, d.count, d.types⟩ : DependencyEdge)] = none := by
      rw [List.find?_eq_none]
      intro a ha
      rcases List.mem_singleton.mp ha with rfl
      simp only [beq_iff_eq]
      exact fun h => hk h
    rw [hsingle, Option.or_none]

theorem findByKey_insertAgg_eq (acc : List DependencyEdge) (d : RawDependency) :
    findByKey (insertAgg acc d) (rawKey d)
      = some (match findByKey acc (rawKey d) with
              | some e₀ => updateEdge d e₀
              | none => freshEdge d) := by
  unfold insertAgg
  by_cases hany : acc.any (fun e => edgeKey e == rawKey d)
  · rw [if_pos hany]
    have hsome := (any_iff_findByKey acc (rawKey d)).mp hany
    cases hfind : findByKey acc (rawKey d) with
    | none => rw [hfind] at hsome; cases hsome
    | some e₀ =>
      unfold findByKey at hfind ⊢
      rw [List.find?_map, updateMap_key_pred, hfind]
      have hkey := List.find?_some hfind
      simp [hkey]
      exact fun h => absurd (beq_iff_eq.mp hkey) h
  · rw [if_neg hany]
    have hfa : List.find? (fun e => edgeKey e == rawKey d) acc = none := by
      cases h : List.find? (fun e => edgeKey e == rawKey d) acc with
      | none => rfl
      | some e =>
        exact absurd ((any_iff_findByKey acc (rawKey d)).mpr (by
          unfold findByKey
          rw [h]
          rfl)) hany
    have hnone : findByKey acc (rawKey d) = none := hfa
    rw [hnone]
    unfold findByKey
    rw [List.find?_append, hfa]
    have hc : ((fun (e : DependencyEdge) => edgeKey e == rawKey d)
        (⟨d.fromPath, d.toPath, d.count, d.types⟩ : DependencyEdge)) = true := by
      simp [edgeKey, rawKey]
    simp [List.find?, hc, freshEdge]


theorem nodupKeys_insertAgg (acc : List DependencyEdge) (d : RawDependency)
    (h : NodupKeys acc) : NodupKeys (insertAgg acc d) := by
  unfold insertAgg
  by_cases hany : acc.any (fun e => edgeKey e == rawKey d)
  · rw [if_pos hany]
    unfold NodupKeys at h ⊢
    rw [List.map_map]
    have : (edgeKey ∘ (fun e => if edgeKey e == rawKey d then updateEdge d e else e))
        = edgeKey := by
      funext e
      by_cases he : edgeKey e == rawKey d
      · simp only [Function.comp, he, if_pos, edgeKey_updateEdge]
      · simp only [Function.comp, he]
        simp
    rw [this]
    exact h
  · rw [if_neg hany]
    unfold NodupKeys at h ⊢
    rw [List.map_append]
    rw [List.nodup_append]
    refine ⟨h, List.nodup_singleton _, ?_⟩
    intro k hk1 hk2
    simp only [List.map_cons, List.map_nil, List.mem_singleton] at hk2
    rcases List.mem_map.mp hk1 with ⟨e, he, rfl⟩
    rw [Bool.not_eq_true, List.any_eq_false] at hany
    exact hany e he (by rw [hk2]; exact beq_self_eq_true _)

theorem nodupKeys_foldl (deps : List RawDependency) :
    ∀ acc, NodupKeys acc → NodupKeys (deps.foldl insertAgg acc) := by
  induction deps with
  | nil => intro acc h; exact h
  | cons d rest ih => intro acc h; exact ih _ (nodupKeys_insertAgg acc d h)


theorem sumCounts_cons_eq {d : RawDependency} {k : String} (h : rawKey d = k)
    (rest : List RawDependency) :
    sumCounts (d :: rest) k = d.count + sumCounts rest k := by
  unfold sumCounts
  rw [List.filter_cons, if_pos (by simp [h])]
  simp

theorem sumCounts_cons_ne {d : RawDependency} {k : String} (h : rawKey d ≠ k)
    (rest : List RawDependency) :
    sumCounts (d :: rest) k = sumCounts rest k := by
  unfold sumCounts
  rw [List.filter_cons, if_neg (by simp [h])]

theorem typesMem_cons_eq {d : RawDependency} {k : String} (h : rawKey d = k)
    (rest : List RawDependency) (x : String) :
    typesMem (d :: rest) k x ↔ x ∈ d.types ∨ typesMem rest k x := by
  unfold typesMem
  constructor
  · rintro ⟨d', hd', hk', hx⟩
    rcases List.mem_cons.mp hd' with rfl | hd'
    · exact Or.inl hx
    · exact Or.inr ⟨d', hd', hk', hx⟩
  · rintro (hx | ⟨d', hd', hk', hx⟩)
    · exact ⟨d, List.mem_cons_self _ _, h, hx⟩
    · exact ⟨d', List.mem_cons_of_mem _ hd', hk', hx⟩

theorem typesMem_cons_ne {d : RawDependency} {k : String} (h : rawKey d ≠ k)
    (rest : List RawDependency) (x : String) :
    typesMem (d :: rest) k x ↔ typesMem rest k x := by
  unfold typesMem
  constructor
  · rintro ⟨d', hd', hk', hx⟩
    rcases List.mem_cons.mp hd' with rfl | hd'
    · exact absurd hk' h
    · exact ⟨d', hd', hk', hx⟩
  · rintro ⟨d', hd', hk', hx⟩
    exact ⟨d', List.mem_cons_of_mem _ hd', hk', hx⟩

theorem foldl_insertAgg_spec (deps : List RawDependency) :
    ∀ (acc : List DependencyEdge) (k : String),
      (findByKey (deps.foldl insertAgg acc) k = none ↔
        (findByKey acc k = none ∧ ∀ d ∈ deps, rawKey d ≠ k)) ∧
      (∀ e, findByKey (deps.foldl insertAgg acc) k = some e →
        (e.count = (match findByKey acc k with
                    | some e₀ => e₀.count
                    | none => 0) + sumCounts deps k) ∧
        (∀ x, x ∈ e.importedTypes ↔
          (∃ e₀, findByKey acc k = some e₀ ∧ x ∈ e₀.importedTypes) ∨ typesMem deps k x) ∧
        ((∃ e₀, findByKey acc k = some e₀ ∧ e.fromPath = e₀.fromPath ∧ e.toPath = e₀.toPath) ∨
         (findByKey acc k = none ∧
          ∃ d ∈ deps, rawKey d = k ∧ e.fromPath = d.fromPath ∧ e.toPath = d.toPath))) := by
  induction deps with
  | nil =>
    intro acc k
    constructor
    · simp
    · intro e he
      rw [List.foldl_nil] at he
      refine ⟨?_, ?_, ?_⟩
      · rw [he]; simp [sumCounts]
      · intro x
        rw [he]
        simp [typesMem]
      · exact Or.inl ⟨e, he, rfl, rfl⟩
  | cons d rest ih =>
    intro acc k
    rw [List.foldl_cons]
    by_cases hk : rawKey d = k
    · subst hk
      have hins := findByKey_insertAgg_eq acc d
      obtain ⟨ih1, ih2⟩ := ih (insertAgg acc d) (rawKey d)
      cases hfind : findByKey acc (rawKey d) with
      | some e₀ =>
        have hins2 : findByKey (insertAgg acc d) (rawKey d) = some (updateEdge d e₀) := by
          rw [hins, hfind]
        constructor
        · rw [ih1, hins2]
          constructor
          · rintro ⟨h, _⟩; cases h
          · rintro ⟨h, habs⟩
            exact absurd rfl (habs d (List.mem_cons_self _ _))
        · intro e he
          obtain ⟨hc, ht, hft⟩ := ih2 e he
          rw [hins2] at ht hft
          have hc2 : e.count = (updateEdge d e₀).count + sumCounts rest (rawKey d) := by
            rw [hc, hins2]
          refine ⟨?_, ?_, ?_⟩
          · show e.count = e₀.count + sumCounts (d :: rest) (rawKey d)
            rw [hc2, sumCounts_cons_eq rfl]
            show (e₀.count + d.count) + _ = _
            omega
          · intro x
            rw [ht x, typesMem_cons_eq rfl]
            constructor
            · rintro (⟨e₀p, heq, hx⟩ | hrest)
              · cases heq
                rcases (mem_mergeTypes x d.types e₀.importedTypes).mp hx with h | h
                · exact Or.inl ⟨e₀, rfl, h⟩
                · exact Or.inr (Or.inl h)
              · exact Or.inr (Or.inr hrest)
            · rintro (⟨e₀p, heq, hx⟩ | hd | hrest)
              · cases heq
                exact Or.inl ⟨updateEdge d e₀, rfl,
                  (mem_mergeTypes x d.types e₀.importedTypes).mpr (Or.inl hx)⟩
              · exact Or.inl ⟨updateEdge d e₀, rfl,
                  (mem_mergeTypes x d.types e₀.importedTypes).mpr (Or.inr hd)⟩
              · exact Or.inr hrest
          · rcases hft with ⟨e₀p, heq, hf, htp⟩ | ⟨hnone, _⟩
            · cases heq
              exact Or.inl ⟨e₀, rfl, hf, htp⟩
            · cases hnone
      | none =>
        have hins2 : findByKey (insertAgg acc d) (rawKey d) = some (freshEdge d) := by
          rw [hins, hfind]
        constructor
        · rw [ih1, hins2]
          constructor
          · rintro ⟨h, _⟩; cases h
          · rintro ⟨h, habs⟩
            exact absurd rfl (habs d (List.mem_cons_self _ _))
        · intro e he
          obtain ⟨hc, ht, hft⟩ := ih2 e he
          rw [hins2] at ht hft
          have hc2 : e.count = (freshEdge d).count + sumCounts rest (rawKey d) := by
            rw [hc, hins2]
          refine ⟨?_, ?_, ?_⟩
          · show e.count = 0 + sumCounts (d :: rest) (rawKey d)
            rw [hc2, sumCounts_cons_eq rfl]
            show d.count + _ = _
            omega
          · intro x
            rw [ht x, typesMem_cons_eq rfl]
            constructor
            · rintro (⟨e₀p, heq, hx⟩ | hrest)
              · cases heq
                exact Or.inr (Or.inl hx)
              · exact Or.inr (Or.inr hrest)
            · rintro (⟨e₀p, heq, hx⟩ | hd | hrest)
              · cases heq
              · exact Or.inl ⟨freshEdge d, rfl, hd⟩
              · exact Or.inr hrest
          · rcases hft with ⟨e₀p, heq, hf, htp⟩ | ⟨hnone, _⟩
            · cases heq
              exact Or.inr ⟨rfl, d, List.mem_cons_self _ _, rfl, hf, htp⟩
            · cases hnone
    · have hne := findByKey_insertAgg_ne acc d k hk
      obtain ⟨ih1, ih2⟩ := ih (insertAgg acc d) k
      constructor
      · rw [ih1, hne]
        constructor
        · rintro ⟨h1, h2⟩
          refine ⟨h1, fun dp hdp => ?_⟩
          rcases List.mem_cons.mp hdp with rfl | hdp
          · exact hk
          · exact h2 dp hdp
        · rintro ⟨h1, h2⟩
          exact ⟨h1, fun dp hdp => h2 dp (List.mem_cons_of_mem _ hdp)⟩
      · intro e he
        obtain ⟨hc, ht, hft⟩ := ih2 e he
        rw [hne] at hc ht hft
        refine ⟨?_, ?_, ?_⟩
        · rw [hc, sumCounts_cons_ne hk]
        · intro x
          rw [ht x, typesMem_cons_ne hk]
        · rcases hft with h | ⟨h1, dp, hdp, hkd, hf, htp⟩
          · exact Or.inl h
          · exact Or.inr ⟨h1, dp, List.mem_cons_of_mem _ hdp, hkd, hf, htp⟩


theorem findByKey_mem {l : List DependencyEdge} {k : String} {e : DependencyEdge}
    (h : findByKey l k = some e) : e ∈ l ∧ edgeKey e = k := by
  unfold findByKey at h
  have h1 := List.find?_some h
  rw [beq_iff_eq] at h1
  exact ⟨List.mem_of_find?_eq_some h, h1⟩

theorem mem_findByKey_self {l : List DependencyEdge} (hnd : NodupKeys l)
    {e : DependencyEdge} (he : e ∈ l) : findByKey l (edgeKey e) = some e := by
  induction l with
  | nil => cases he
  | cons a t ih =>
    rcases List.mem_cons.mp he with rfl | he
    · unfold findByKey
      rw [List.find?_cons_of_pos _ (by simp)]
    · unfold NodupKeys at hnd
      rw [List.map_cons, List.nodup_cons] at hnd
      have hne : edgeKey a ≠ edgeKey e := by
        intro hcontra
        exact hnd.1 (hcontra ▸ List.mem_map_of_mem edgeKey he)
      unfold findByKey
      rw [List.find?_cons_of_neg _ (by simpa using hne)]
      exact ih hnd.2 he

theorem agg_nodupKeys (deps : List RawDependency) :
    NodupKeys (aggregateDependencies deps) :=
  nodupKeys_foldl deps [] (by simp [NodupKeys])

theorem agg_find_none_iff (deps : List RawDependency) (k : String) :
    findByKey (aggregateDependencies deps) k = none ↔ ∀ d ∈ deps, rawKey d ≠ k := by
  rw [aggregateDependencies, (foldl_insertAgg_spec deps [] k).1]
  simp [findByKey]

theorem agg_find_some (deps : List RawDependency) (k : String) (e : DependencyEdge)
    (h : findByKey (aggregateDependencies deps) k = some e) :
    e.count = sumCounts deps k ∧
    (∀ x, x ∈ e.importedTypes ↔ typesMem deps k x) ∧
    (∃ d ∈ deps, rawKey d = k ∧ e.fromPath = d.fromPath ∧ e.toPath = d.toPath) := by
  have hspec := (foldl_insertAgg_spec deps [] k).2 e h
  have hempty : findByKey ([] : List DependencyEdge) k = none := rfl
  refine ⟨?_, ?_, ?_⟩
  · rw [hspec.1]
    simp [findByKey]
  · intro x
    rw [hspec.2.1 x]
    constructor
    · rintro (⟨e₀, h₀, _⟩ | h)
      · cases h₀
      · exact h
    · exact Or.inr
  · rcases hspec.2.2 with ⟨e₀, h₀, _⟩ | ⟨_, h⟩
    · cases h₀
    · exact h


theorem sumCounts_perm {l₁ l₂ : List RawDependency} (h : l₁.Perm l₂) (k : String) :
    sumCounts l₁ k = sumCounts l₂ k :=
  List.Perm.sum_eq (List.Perm.map _ (List.Perm.filter _ h))

theorem typesMem_perm {l₁ l₂ : List RawDependency} (h : l₁.Perm l₂) (k x : String) :
    typesMem l₁ k x ↔ typesMem l₂ k x := by
  unfold typesMem
  constructor
  · rintro ⟨d, hd, hk, hx⟩; exact ⟨d, h.subset hd, hk, hx⟩
  · rintro ⟨d, hd, hk, hx⟩; exact ⟨d, h.symm.subset hd, hk, hx⟩

theorem agg_pairs_nodup (l : List RawDependency) :
    ((aggregateDependencies l).map (fun e => (e.fromPath, e.toPath))).Nodup := by
  have h := agg_nodupKeys l
  unfold NodupKeys at h
  have hfac : List.map edgeKey (aggregateDependencies l)
      = ((aggregateDependencies l).map (fun e => (e.fromPath, e.toPath))).map
          (fun p => depKey p.1 p.2) := by
    rw [List.map_map]
    rfl
  rw [hfac] at h
  exact List.Nodup.of_map _ h

theorem agg_pair_mem_mono (l l' : List RawDependency) (hperm : l.Perm l')
    (hinj : ∀ d ∈ l, ∀ dp ∈ l, rawKey d = rawKey dp →
      d.fromPath = dp.fromPath ∧ d.toPath = dp.toPath)
    (f t : String) (h : ∃ e ∈ aggregateDependencies l, e.fromPath = f ∧ e.toPath = t) :
    ∃ e ∈ aggregateDependencies l', e.fromPath = f ∧ e.toPath = t := by
  obtain ⟨e, he, hf, ht⟩ := h
  have hfind := mem_findByKey_self (agg_nodupKeys l) he
  obtain ⟨_, _, d, hd, hkd, hdf, hdt⟩ := agg_find_some l (edgeKey e) e hfind
  have hnn : findByKey (aggregateDependencies l') (rawKey d) ≠ none := by
    intro hnone
    rw [agg_find_none_iff] at hnone
    exact hnone d (hperm.subset hd) rfl
  cases hfind2 : findByKey (aggregateDependencies l') (rawKey d) with
  | none => exact absurd hfind2 hnn
  | some e2 =>
    obtain ⟨_, _, d2, hd2, hk2, hf2, ht2⟩ := agg_find_some l' (rawKey d) e2 hfind2
    have hd2l : d2 ∈ l := hperm.symm.subset hd2
    obtain ⟨hpf, hpt⟩ := hinj d2 hd2l d hd hk2
    refine ⟨e2, (findByKey_mem hfind2).1, ?_, ?_⟩
    · rw [hf2, hpf, ← hdf, hf]
    · rw [ht2, hpt, ← hdt, ht]

/-- C7, amended: provided no two distinct (from, to) pairs in the input
collide under the `from:::to` string key (in particular whenever no
`from` path contains the separator `:::`), aggregation is
order-insensitive: either order yields the same duplicate-free set of
(from, to) pairs, with the same summed count and the
same imported-types set for each pair.  Without that proviso the claim fails,
as the counterexample shows. -/
theorem C7_theorem (l₁ l₂ : List RawDependency) (hperm : l₁.Perm l₂)
    (hinj : ∀ d ∈ l₁, ∀ dp ∈ l₁, rawKey d = rawKey dp →
      d.fromPath = dp.fromPath ∧ d.toPath = dp.toPath) :
    ((aggregateDependencies l₁).map (fun e => (e.fromPath, e.toPath))).Nodup ∧
    ((aggregateDependencies l₂).map (fun e => (e.fromPath, e.toPath))).Nodup ∧
    (∀ f t : String,
      (∃ e ∈ aggregateDependencies l₁, e.fromPath = f ∧ e.toPath = t) ↔
      (∃ e ∈ aggregateDependencies l₂, e.fromPath = f ∧ e.toPath = t)) ∧
    (∀ e₁ ∈ aggregateDependencies l₁, ∀ e₂ ∈ aggregateDependencies l₂,
      e₁.fromPath = e₂.fromPath → e₁.toPath = e₂.toPath →
      e₁.count = e₂.count ∧ (∀ x, x ∈ e₁.importedTypes ↔ x ∈ e₂.importedTypes)) := by
  have hinj₂ : ∀ d ∈ l₂, ∀ dp ∈ l₂, rawKey d = rawKey dp →
      d.fromPath = dp.fromPath ∧ d.toPath = dp.toPath :=
    fun d hd dp hdp => hinj d (hperm.symm.subset hd) dp (hperm.symm.subset hdp)
  refine ⟨agg_pairs_nodup l₁, agg_pairs_nodup l₂, ?_, ?_⟩
  · intro f t
    exact ⟨agg_pair_mem_mono l₁ l₂ hperm hinj f t,
      agg_pair_mem_mono l₂ l₁ hperm.symm hinj₂ f t⟩
  · intro e₁ he₁ e₂ he₂ hf ht
    have hkey : edgeKey e₂ = edgeKey e₁ := by
      unfold edgeKey depKey
      rw [hf, ht]
    have hfind₁ := mem_findByKey_self (agg_nodupKeys l₁) he₁
    have hfind₂ := mem_findByKey_self (agg_nodupKeys l₂) he₂
    rw [hkey] at hfind₂
    obtain ⟨hc₁, ht₁, _⟩ := agg_find_some l₁ (edgeKey e₁) e₁ hfind₁
    obtain ⟨hc₂, ht₂, _⟩ := agg_find_some l₂ (edgeKey e₁) e₂ hfind₂
    constructor
    · rw [hc₁, hc₂, sumCounts_perm hperm]
    · intro x
      rw [ht₁ x, ht₂ x, typesMem_perm hperm]


/-- C7, counterexample: `depX` and `depY` are distinct (from, to) pairs
but share the string key `a:::b:::c`, so the two orders of the same two
raw edges aggregate to different (from, to) pair sets — aggregation is
not order-insensitive as claimed. -/
theorem C7_counterexample :
    [depX, depY].Perm [depY, depX] ∧
    (aggregateDependencies [depX, depY]).map (fun e => (e.fromPath, e.toPath))
      = [("a:::b", "c")] ∧
    (aggregateDependencies [depY, depX]).map (fun e => (e.fromPath, e.toPath))
      = [("a", "b:::c")] :=
  ⟨List.Perm.swap depY depX [], rfl, rfl⟩

/-- Witness for `C7_theorem` on two collision-free raw edges in both
orders. -/
theorem C7_witness :
    ((aggregateDependencies [depW1, depW2]).map (fun e => (e.fromPath, e.toPath))).Nodup ∧
    ((aggregateDependencies [depW2, depW1]).map (fun e => (e.fromPath, e.toPath))).Nodup ∧
    (∀ f t : String,
      (∃ e ∈ aggregateDependencies [depW1, depW2], e.fromPath = f ∧ e.toPath = t) ↔
      (∃ e ∈ aggregateDependencies [depW2, depW1], e.fromPath = f ∧ e.toPath = t)) ∧
    (∀ e₁ ∈ aggregateDependencies [depW1, depW2],
      ∀ e₂ ∈ aggregateDependencies [depW2, depW1],
      e₁.fromPath = e₂.fromPath → e₁.toPath = e₂.toPath →
      e₁.count = e₂.count ∧ (∀ x, x ∈ e₁.importedTypes ↔ x ∈ e₂.importedTypes)) :=
  C7_theorem [depW1, depW2] [depW2, depW1] (List.Perm.swap depW2 depW1 []) (by decide)

end Codeviz
